import Mathlib

/-!
Shallow embedding of the simple-chess engine (`js/game.js`, `js/ai.js`).

Conventions of the model:
* JS numbers are modelled as `Int`; squares are `Int` in `0..63`
  (index 0 = a8, 63 = h1, as in the source).
* The `Int8Array(64)` board is a `List Int` of length 64.  The typed
  array ignores out-of-range writes and yields no piece for
  out-of-range reads; `boardGet`/`boardSet` guard the index the same
  way.  Every read/write the engine performs is bounds-checked in the
  source before the access.
* The mutable `Game` object is the `Position` structure; methods that
  mutate `this` become functions `Position → ... → Position`, and
  methods that mutate temporarily and restore (the make/probe/undo
  pattern) become functions returning `result × Position` where the
  second component is the state the object is left in.
* `history` is a LIFO stack (JS `push`/`pop` at the end); it is
  modelled with the most recent snapshot at the head of the list.
  `positionHistory` and `moveList` are append-only and are iterated
  front-to-back, so they are modelled with JS `push` as `++ [x]`.
* The JS engine mutates `move.captured` inside `makeMove`; the pure
  model records that value in the undo snapshot (`Undo.captured`)
  instead, which is the only place the engine itself reads it back.
-/

namespace Chess

def EMPTY : Int := 0
def P : Int := 1
def N : Int := 2
def B : Int := 3
def R : Int := 4
def Q : Int := 5
def K : Int := 6
def WHITE : Int := 1
def BLACK : Int := -1

/-- `sq(file, rank) = (7 - rank) * 8 + file` -/
def sq (file rank : Int) : Int := (7 - rank) * 8 + file
/-- `fileOf(s) = s & 7`; all callers pass `0 ≤ s < 64`. -/
def fileOf (s : Int) : Int := s % 8
/-- `rankOf(s) = 7 - (s >> 3)`; all callers pass `0 ≤ s < 64`. -/
def rankOf (s : Int) : Int := 7 - s / 8

def FILE_CHARS : List Char := ['a', 'b', 'c', 'd', 'e', 'f', 'g', 'h']

/-- `sqName(s) = 'abcdefgh'[fileOf(s)] + (rankOf(s) + 1)` -/
def sqName (s : Int) : String :=
  String.singleton (FILE_CHARS.getD (fileOf s).toNat 'a') ++ toString (rankOf s + 1)

def BISHOP_DIRS : List Int := [-9, -7, 7, 9]
def ROOK_DIRS : List Int := [-8, -1, 1, 8]
def QUEEN_DIRS : List Int := BISHOP_DIRS ++ ROOK_DIRS
def KNIGHT_OFFSETS : List Int := [-17, -15, -10, -6, 6, 10, 15, 17]
def KING_OFFSETS : List Int := [-9, -8, -7, -1, 1, 7, 8, 9]

def FLAG_NORMAL : Int := 0
def FLAG_DOUBLE_PUSH : Int := 1
def FLAG_EP_CAPTURE : Int := 2
def FLAG_CASTLE_K : Int := 3
def FLAG_CASTLE_Q : Int := 4
def FLAG_PROMO_N : Int := 5
def FLAG_PROMO_B : Int := 6
def FLAG_PROMO_R : Int := 7
def FLAG_PROMO_Q : Int := 8

/-- `isPromotion(flag) = flag >= FLAG_PROMO_N` -/
def isPromotion (flag : Int) : Bool := FLAG_PROMO_N ≤ flag
/-- `promopiece(flag) = flag - 3` -/
def promopiece (flag : Int) : Int := flag - 3

structure Move where
  fromSq : Int
  toSq : Int
  flag : Int
deriving DecidableEq, Repr

/-- One entry of the undo log pushed by `makeMove`. -/
structure Undo where
  castling : List Bool
  epSquare : Int
  halfMoveClock : Int
  captured : Int
  move : Move
deriving DecidableEq, Repr

structure Position where
  board : List Int
  turn : Int
  castling : List Bool
  epSquare : Int
  halfMoveClock : Int
  fullMoveNumber : Int
  history : List Undo
  positionHistory : List String
  moveList : List String
deriving DecidableEq, Repr

/-- Guarded read of the `Int8Array(64)` board. -/
def boardGet (b : List Int) (s : Int) : Int :=
  if 0 ≤ s ∧ s < 64 then b.getD s.toNat 0 else 0

/-- Guarded write to the `Int8Array(64)` board (out-of-range writes are no-ops). -/
def boardSet (b : List Int) (s : Int) (v : Int) : List Int :=
  if 0 ≤ s ∧ s < 64 then b.set s.toNat v else b

def pieceAt (g : Position) (s : Int) : Int := boardGet g.board s

/-- The square indices `0..63` that the `for (let s = 0; s < 64; s++)` loops visit. -/
def squares : List Int := (List.range 64).map Int.ofNat

def PIECE_CHARS : List Char :=
  ['.', 'P', 'N', 'B', 'R', 'Q', 'K', 'p', 'n', 'b', 'r', 'q', 'k']

/-- `positionKey()` reads exactly the board, turn, castling rights and
en-passant square, so it is defined on those four fields. -/
def positionKeyCore (board : List Int) (turn : Int) (castling : List Bool)
    (epSquare : Int) : String :=
  let rows := (List.range 8).foldl (fun fen ri =>
    let r : Int := 7 - (ri : Int)
    let fe := (List.range 8).foldl (fun (fe : String × Nat) fi =>
      let f : Int := (fi : Int)
      let p := boardGet board (sq f r)
      if p = EMPTY then (fe.1, fe.2 + 1)
      else
        let fen1 := if fe.2 ≠ 0 then fe.1 ++ toString fe.2 else fe.1
        let c := PIECE_CHARS.getD p.natAbs '.'
        (fen1 ++ String.singleton (if p > 0 then c.toUpper else c.toLower), 0))
      (fen, 0)
    let fen := if fe.2 ≠ 0 then fe.1 ++ toString fe.2 else fe.1
    if r > 0 then fen ++ "/" else fen) ""
  let fen := rows ++ (if turn = WHITE then " w " else " b ")
  let c := (if castling.getD 0 false then "K" else "")
    ++ (if castling.getD 1 false then "Q" else "")
    ++ (if castling.getD 2 false then "k" else "")
    ++ (if castling.getD 3 false then "q" else "")
  let fen := fen ++ (if c = "" then "-" else c)
  fen ++ " " ++ (if 0 ≤ epSquare then sqName epSquare else "-")

def positionKey (g : Position) : String :=
  positionKeyCore g.board g.turn g.castling g.epSquare

def toFEN (g : Position) : String :=
  positionKey g ++ " " ++ toString g.halfMoveClock ++ " " ++ toString g.fullMoveNumber

/-- The back-rank array `[R, N, B, Q, K, B, N, R]` of `reset()`. -/
def backRank : List Int := [R, N, B, Q, K, B, N, R]

/-- The board built by `reset()`. -/
def resetBoard : List Int :=
  (List.range 8).foldl (fun b (fi : Nat) =>
    let f : Int := (fi : Int)
    boardSet (boardSet (boardSet (boardSet b
      (sq f 7) (-(backRank.getD fi 0)))
      (sq f 6) (-P))
      (sq f 1) P)
      (sq f 0) (backRank.getD fi 0))
    (List.replicate 64 EMPTY)

/-- The position produced by `reset()` (also by the `Game` constructor). -/
def reset : Position :=
  let g : Position :=
    { board := resetBoard, turn := WHITE, castling := [true, true, true, true],
      epSquare := -1, halfMoveClock := 0, fullMoveNumber := 1,
      history := [], positionHistory := [], moveList := [] }
  { g with positionHistory := g.positionHistory ++ [positionKey g] }

-- Move generation ------------------------------------------------------

def genPawnMoves (g : Position) (s color : Int) : List Move :=
  let dir := if color = WHITE then -8 else 8
  let startRank := if color = WHITE then 1 else 6
  let promoRank := if color = WHITE then 7 else 0
  let file := fileOf s
  let rank := rankOf s
  let fwd := s + dir
  let fwdMoves :=
    if 0 ≤ fwd ∧ fwd < 64 ∧ boardGet g.board fwd = EMPTY then
      if rankOf fwd = promoRank then
        [Move.mk s fwd FLAG_PROMO_Q, Move.mk s fwd FLAG_PROMO_R,
         Move.mk s fwd FLAG_PROMO_B, Move.mk s fwd FLAG_PROMO_N]
      else
        Move.mk s fwd FLAG_NORMAL ::
          (if rank = startRank ∧ boardGet g.board (s + dir * 2) = EMPTY then
            [Move.mk s (s + dir * 2) FLAG_DOUBLE_PUSH]
          else [])
    else []
  let capMoves := ([-1, 1] : List Int).flatMap (fun df =>
    let cf := file + df
    if cf < 0 ∨ 7 < cf then []
    else
      let target := s + dir + df
      if target < 0 ∨ 64 ≤ target then []
      else
        let tp := boardGet g.board target
        (if tp ≠ EMPTY ∧ (if tp > 0 then WHITE else BLACK) ≠ color then
          if rankOf target = promoRank then
            [Move.mk s target FLAG_PROMO_Q, Move.mk s target FLAG_PROMO_R,
             Move.mk s target FLAG_PROMO_B, Move.mk s target FLAG_PROMO_N]
          else [Move.mk s target FLAG_NORMAL]
        else []) ++
        (if target = g.epSquare then [Move.mk s target FLAG_EP_CAPTURE] else []))
  fwdMoves ++ capMoves

def genKnightMoves (g : Position) (s color : Int) : List Move :=
  let file := fileOf s
  let rank := rankOf s
  KNIGHT_OFFSETS.flatMap (fun off =>
    let t := s + off
    if t < 0 ∨ 64 ≤ t then []
    else
      let fd := |fileOf t - file|
      let rd := |rankOf t - rank|
      if ¬((fd = 1 ∧ rd = 2) ∨ (fd = 2 ∧ rd = 1)) then []
      else
        let tp := boardGet g.board t
        if tp = EMPTY ∨ (if tp > 0 then WHITE else BLACK) ≠ color then
          [Move.mk s t FLAG_NORMAL]
        else [])

/-- One sliding ray of `_genSliderMoves`: the `for (let i = 0; i < 7; i++)`
loop, with `break` rendered as returning `[]`. -/
def sliderRay (g : Position) (s color dir : Int) : Nat → Int → List Move
  | 0, _ => []
  | k + 1, cs =>
    let prevFile := fileOf cs
    let cs' := cs + dir
    if cs' < 0 ∨ 64 ≤ cs' then []
    else if 1 < |fileOf cs' - prevFile| then []
    else
      let tp := boardGet g.board cs'
      if tp = EMPTY then Move.mk s cs' FLAG_NORMAL :: sliderRay g s color dir k cs'
      else if (if tp > 0 then WHITE else BLACK) ≠ color then [Move.mk s cs' FLAG_NORMAL]
      else []

def genSliderMoves (g : Position) (s color : Int) (dirs : List Int) : List Move :=
  dirs.flatMap (fun dir => sliderRay g s color dir 7 s)

/-- One attacking ray of `isSquareAttacked`: empty squares are skipped,
the first occupied square decides (`t1`/`t2` are the two piece types
that attack along this ray). -/
def attackRay (g : Position) (byColor dir t1 t2 : Int) : Nat → Int → Bool
  | 0, _ => false
  | k + 1, cs =>
    let pf := fileOf cs
    let cs' := cs + dir
    if cs' < 0 ∨ 64 ≤ cs' then false
    else if 1 < |fileOf cs' - pf| then false
    else
      let p := boardGet g.board cs'
      if p = EMPTY then attackRay g byColor dir t1 t2 k cs'
      else decide (p = t1 * byColor ∨ p = t2 * byColor)

def isSquareAttacked (g : Position) (s byColor : Int) : Bool :=
  let file := fileOf s
  let rank := rankOf s
  let pawnDir := if byColor = WHITE then 8 else -8
  (([-1, 1] : List Int).any (fun df =>
    let frm := s + pawnDir + df
    decide (0 ≤ frm ∧ frm < 64 ∧ |fileOf frm - file| = 1 ∧
      boardGet g.board frm = P * byColor)))
  || (KNIGHT_OFFSETS.any (fun off =>
    let frm := s + off
    decide (0 ≤ frm ∧ frm < 64 ∧
      ((|fileOf frm - file| = 1 ∧ |rankOf frm - rank| = 2) ∨
       (|fileOf frm - file| = 2 ∧ |rankOf frm - rank| = 1)) ∧
      boardGet g.board frm = N * byColor)))
  || (KING_OFFSETS.any (fun off =>
    let frm := s + off
    decide (0 ≤ frm ∧ frm < 64 ∧ |fileOf frm - file| ≤ 1 ∧ |rankOf frm - rank| ≤ 1 ∧
      boardGet g.board frm = K * byColor)))
  || (BISHOP_DIRS.any (fun dir => attackRay g byColor dir B Q 7 s))
  || (ROOK_DIRS.any (fun dir => attackRay g byColor dir R Q 7 s))

def genKingMoves (g : Position) (s color : Int) : List Move :=
  let file := fileOf s
  let rank := rankOf s
  let basic := KING_OFFSETS.flatMap (fun off =>
    let t := s + off
    if t < 0 ∨ 64 ≤ t then []
    else if 1 < |fileOf t - file| ∨ 1 < |rankOf t - rank| then []
    else
      let tp := boardGet g.board t
      if tp = EMPTY ∨ (if tp > 0 then WHITE else BLACK) ≠ color then
        [Move.mk s t FLAG_NORMAL]
      else [])
  let baseRank := if color = WHITE then 0 else 7
  let kSq := sq 4 baseRank
  if s ≠ kSq then basic
  else
    let ksIdx : Nat := if color = WHITE then 0 else 2
    let castleK :=
      if g.castling.getD ksIdx false ∧
          boardGet g.board (sq 5 baseRank) = EMPTY ∧
          boardGet g.board (sq 6 baseRank) = EMPTY ∧
          isSquareAttacked g (sq 4 baseRank) (-color) = false ∧
          isSquareAttacked g (sq 5 baseRank) (-color) = false ∧
          isSquareAttacked g (sq 6 baseRank) (-color) = false then
        [Move.mk kSq (sq 6 baseRank) FLAG_CASTLE_K]
      else []
    let castleQ :=
      if g.castling.getD (ksIdx + 1) false ∧
          boardGet g.board (sq 3 baseRank) = EMPTY ∧
          boardGet g.board (sq 2 baseRank) = EMPTY ∧
          boardGet g.board (sq 1 baseRank) = EMPTY ∧
          isSquareAttacked g (sq 4 baseRank) (-color) = false ∧
          isSquareAttacked g (sq 3 baseRank) (-color) = false ∧
          isSquareAttacked g (sq 2 baseRank) (-color) = false then
        [Move.mk kSq (sq 2 baseRank) FLAG_CASTLE_Q]
      else []
    basic ++ castleK ++ castleQ

/-- The per-square dispatch of `generatePseudoLegalMoves` (one iteration
of its square loop). -/
def movesFrom (g : Position) (s : Int) : List Move :=
  let p := boardGet g.board s
  if p = EMPTY ∨ (if p > 0 then WHITE else BLACK) ≠ g.turn then []
  else if |p| = P then genPawnMoves g s g.turn
  else if |p| = N then genKnightMoves g s g.turn
  else if |p| = B then genSliderMoves g s g.turn BISHOP_DIRS
  else if |p| = R then genSliderMoves g s g.turn ROOK_DIRS
  else if |p| = Q then genSliderMoves g s g.turn QUEEN_DIRS
  else if |p| = K then genKingMoves g s g.turn
  else []

def generatePseudoLegalMoves (g : Position) : List Move :=
  squares.flatMap (movesFrom g)

def findKing (g : Position) (color : Int) : Int :=
  match squares.find? (fun s => boardGet g.board s = K * color) with
  | some s => s
  | none => -1

def isInCheck (g : Position) (color : Int) : Bool :=
  let kSq := findKing g color
  decide (0 ≤ kSq) && isSquareAttacked g kSq (-color)

-- Make / undo ----------------------------------------------------------

def makeMove (g : Position) (move : Move) : Position :=
  let piece := boardGet g.board move.fromSq
  let color := if piece > 0 then WHITE else BLACK
  let ptype := |piece|
  let captured :=
    if move.flag = FLAG_EP_CAPTURE then
      boardGet g.board (move.toSq + (if color = WHITE then 8 else -8))
    else boardGet g.board move.toSq
  let board1 :=
    if move.flag = FLAG_EP_CAPTURE then
      boardSet g.board (move.toSq + (if color = WHITE then 8 else -8)) EMPTY
    else g.board
  let board2 := boardSet (boardSet board1 move.toSq piece) move.fromSq EMPTY
  let board3 :=
    if isPromotion move.flag then boardSet board2 move.toSq (promopiece move.flag * color)
    else board2
  let board4 :=
    if move.flag = FLAG_CASTLE_K then
      let baseRank := if color = WHITE then 0 else 7
      boardSet (boardSet board3 (sq 5 baseRank) (R * color)) (sq 7 baseRank) EMPTY
    else if move.flag = FLAG_CASTLE_Q then
      let baseRank := if color = WHITE then 0 else 7
      boardSet (boardSet board3 (sq 3 baseRank) (R * color)) (sq 0 baseRank) EMPTY
    else board3
  let epSquare' :=
    if move.flag = FLAG_DOUBLE_PUSH then move.fromSq + (if color = WHITE then -8 else 8)
    else -1
  let cast1 :=
    if ptype = K then
      if color = WHITE then (g.castling.set 0 false).set 1 false
      else (g.castling.set 2 false).set 3 false
    else g.castling
  let cast2 := if move.fromSq = sq 7 0 ∨ move.toSq = sq 7 0 then cast1.set 0 false else cast1
  let cast3 := if move.fromSq = sq 0 0 ∨ move.toSq = sq 0 0 then cast2.set 1 false else cast2
  let cast4 := if move.fromSq = sq 7 7 ∨ move.toSq = sq 7 7 then cast3.set 2 false else cast3
  let cast5 := if move.fromSq = sq 0 7 ∨ move.toSq = sq 0 7 then cast4.set 3 false else cast4
  let halfMoveClock' := if ptype = P ∨ captured ≠ EMPTY then 0 else g.halfMoveClock + 1
  let fullMoveNumber' := if color = BLACK then g.fullMoveNumber + 1 else g.fullMoveNumber
  { board := board4, turn := -g.turn, castling := cast5, epSquare := epSquare',
    halfMoveClock := halfMoveClock', fullMoveNumber := fullMoveNumber',
    history := { castling := g.castling, epSquare := g.epSquare,
                 halfMoveClock := g.halfMoveClock, captured := captured,
                 move := move } :: g.history,
    positionHistory := g.positionHistory, moveList := g.moveList }

def undoMove (g : Position) : Position :=
  match g.history with
  | [] => g
  | state :: rest =>
    let turn' := -g.turn
    let color := turn'
    let move := state.move
    let board1 :=
      if isPromotion move.flag then boardSet g.board move.toSq (P * color) else g.board
    let board2 := boardSet (boardSet board1 move.fromSq (boardGet board1 move.toSq)) move.toSq EMPTY
    let board3 :=
      if move.flag = FLAG_EP_CAPTURE then
        boardSet board2 (move.toSq + (if color = WHITE then 8 else -8)) state.captured
      else if state.captured ≠ EMPTY then boardSet board2 move.toSq state.captured
      else board2
    let board4 :=
      if move.flag = FLAG_CASTLE_K then
        let baseRank := if color = WHITE then 0 else 7
        boardSet (boardSet board3 (sq 7 baseRank) (R * color)) (sq 5 baseRank) EMPTY
      else if move.flag = FLAG_CASTLE_Q then
        let baseRank := if color = WHITE then 0 else 7
        boardSet (boardSet board3 (sq 0 baseRank) (R * color)) (sq 3 baseRank) EMPTY
      else board3
    { board := board4, turn := turn', castling := state.castling,
      epSquare := state.epSquare, halfMoveClock := state.halfMoveClock,
      fullMoveNumber := if color = BLACK then g.fullMoveNumber - 1 else g.fullMoveNumber,
      history := rest, positionHistory := g.positionHistory, moveList := g.moveList }

/-- `generateLegalMoves`, with the state the probing loop leaves behind
returned alongside the move list (the JS method mutates `this` with each
`makeMove`/`undoMove` pair). -/
def genLegalS (g : Position) : List Move × Position :=
  let pseudo := generatePseudoLegalMoves g
  pseudo.foldl (fun acc m =>
    let st1 := makeMove acc.2 m
    let keep := !(isInCheck st1 (-st1.turn))
    (if keep then acc.1 ++ [m] else acc.1, undoMove st1)) ([], g)

/-- The move list `generateLegalMoves()` returns. -/
def generateLegalMoves (g : Position) : List Move := (genLegalS g).1

-- Game end -------------------------------------------------------------

def isFiftyMoveRule (g : Position) : Bool := 100 ≤ g.halfMoveClock

/-- The counting loop of `isThreefoldRepetition`, with its early
`return true` once the count reaches 3. -/
def repetitionScan (current : String) : List String → Nat → Bool
  | [], _ => false
  | pos :: rest, count =>
    let count' := if pos = current then count + 1 else count
    if 3 ≤ count' then true else repetitionScan current rest count'

def isThreefoldRepetition (g : Position) : Bool :=
  repetitionScan (positionKey g) g.positionHistory 0

/-- The `{type, sq}` records `isInsufficientMaterial` collects for one side. -/
def piecesOfSide (g : Position) (side : Int) : List (Int × Int) :=
  squares.filterMap (fun s =>
    let p := boardGet g.board s
    if p ≠ EMPTY ∧ (if p > 0 then WHITE else BLACK) = side then some (|p|, s) else none)

def isInsufficientMaterial (g : Position) : Bool :=
  let w := piecesOfSide g WHITE
  let b := piecesOfSide g BLACK
  let wc := w.length
  let bc := b.length
  if wc = 1 ∧ bc = 1 then true
  else
    (if wc = 1 ∧ bc = 2 then
      match b.find? (fun pc => decide (pc.1 ≠ K)) with
      | some o => decide (o.1 = B ∨ o.1 = N)
      | none => false
    else false)
    || (if bc = 1 ∧ wc = 2 then
      match w.find? (fun pc => decide (pc.1 ≠ K)) with
      | some o => decide (o.1 = B ∨ o.1 = N)
      | none => false
    else false)
    || (if wc = 2 ∧ bc = 2 then
      match w.find? (fun pc => decide (pc.1 = B)), b.find? (fun pc => decide (pc.1 = B)) with
      | some wb, some bb =>
        decide ((fileOf wb.2 + rankOf wb.2) % 2 = (fileOf bb.2 + rankOf bb.2) % 2)
      | _, _ => false
    else false)

/-- `isCheckmate()`, returning also the state its `generateLegalMoves`
probe loop leaves behind. -/
def isCheckmateS (g : Position) : Bool × Position :=
  let lm := genLegalS g
  (decide (lm.1.length = 0) && isInCheck lm.2 lm.2.turn, lm.2)

def isStalemateS (g : Position) : Bool × Position :=
  let lm := genLegalS g
  (decide (lm.1.length = 0) && !(isInCheck lm.2 lm.2.turn), lm.2)

def isDrawS (g : Position) : Bool × Position :=
  let st := isStalemateS g
  (st.1 || isFiftyMoveRule st.2 || isThreefoldRepetition st.2 || isInsufficientMaterial st.2,
   st.2)

def isGameOverS (g : Position) : Bool × Position :=
  let cm := isCheckmateS g
  if cm.1 then (true, cm.2)
  else
    let dr := isDrawS cm.2
    (dr.1, dr.2)

def getGameResultS (g : Position) : Option String × Position :=
  let cm := isCheckmateS g
  if cm.1 then
    (some (if cm.2.turn = WHITE then "Black wins by checkmate" else "White wins by checkmate"),
     cm.2)
  else
    let st := isStalemateS cm.2
    if st.1 then (some "Draw by stalemate", st.2)
    else if isFiftyMoveRule st.2 then (some "Draw by fifty-move rule", st.2)
    else if isThreefoldRepetition st.2 then (some "Draw by threefold repetition", st.2)
    else if isInsufficientMaterial st.2 then (some "Draw by insufficient material", st.2)
    else (none, st.2)

-- Algebraic notation ---------------------------------------------------

def PIECE_LETTERS : List Char := ['.', 'P', 'N', 'B', 'R', 'Q', 'K']

/-- `moveToAlgebraic(move)`, returning the SAN string together with the
state the method leaves behind (it runs `generateLegalMoves` for
disambiguation and a make/test/undo probe for `+`/`#`). -/
def moveToAlgebraicS (g : Position) (move : Move) : String × Position :=
  let piece := boardGet g.board move.fromSq
  let ptype := |piece|
  if move.flag = FLAG_CASTLE_K then ("O-O", g)
  else if move.flag = FLAG_CASTLE_Q then ("O-O-O", g)
  else
    let part1 :=
      if ptype ≠ P then
        let lm := genLegalS g
        let others := lm.1.filter (fun m =>
          decide (m.toSq = move.toSq) && decide (m.fromSq ≠ move.fromSq) &&
          decide (|boardGet lm.2.board m.fromSq| = ptype))
        let base := String.singleton (PIECE_LETTERS.getD ptype.toNat '.')
        if others.length ≠ 0 then
          let sameFile := others.any (fun m => decide (fileOf m.fromSq = fileOf move.fromSq))
          let sameRank := others.any (fun m => decide (rankOf m.fromSq = rankOf move.fromSq))
          if ¬sameFile then
            (base ++ String.singleton (FILE_CHARS.getD (fileOf move.fromSq).toNat 'a'), lm.2)
          else if ¬sameRank then (base ++ toString (rankOf move.fromSq + 1), lm.2)
          else (base ++ sqName move.fromSq, lm.2)
        else (base, lm.2)
      else ("", g)
    let isCapture := boardGet part1.2.board move.toSq ≠ EMPTY ∨ move.flag = FLAG_EP_CAPTURE
    let cap :=
      if isCapture then
        (if ptype = P then String.singleton (FILE_CHARS.getD (fileOf move.fromSq).toNat 'a')
         else "") ++ "x"
      else ""
    let promo :=
      if isPromotion move.flag then
        "=" ++ String.singleton (PIECE_LETTERS.getD (promopiece move.flag).toNat '.')
      else ""
    let st1 := makeMove part1.2 move
    let suffixed :=
      if isInCheck st1 st1.turn then
        let lm2 := genLegalS st1
        ((if lm2.1.length = 0 then "#" else "+"), lm2.2)
      else ("", st1)
    (part1.1 ++ cap ++ sqName move.toSq ++ promo ++ suffixed.1, undoMove suffixed.2)

/-- `executeMove(move)`: records SAN, applies the move and appends the
position fingerprint; returns the SAN string with the new state. -/
def executeMove (g : Position) (move : Move) : String × Position :=
  let alg := moveToAlgebraicS g move
  let g2 := makeMove alg.2 move
  (alg.1,
   { g2 with positionHistory := g2.positionHistory ++ [positionKey g2],
             moveList := g2.moveList ++ [alg.1] })

/-- `perft(depth)`, with the state threaded through the make/recurse/undo
loop. -/
def perftS (g : Position) : Nat → Int × Position
  | 0 => (1, g)
  | d + 1 =>
    let lm := genLegalS g
    lm.1.foldl (fun acc m =>
      let st1 := makeMove acc.2 m
      let sub := perftS st1 d
      (acc.1 + sub.1, undoMove sub.2)) (0, lm.2)

def perft (g : Position) (depth : Nat) : Int := (perftS g depth).1

-- AI move ordering (`ai.js`) ------------------------------------------

def PIECE_VALUE : List Int := [0, 100, 320, 330, 500, 900, 20000]

/-- The `_score` that `orderMoves` assigns to a move: MVV-LVA for moves
whose victim sits on the destination square, plus a flat 800 bonus for
promotions. -/
def moveScore (game : Position) (move : Move) : Int :=
  let victim := boardGet game.board move.toSq
  let base :=
    if victim ≠ EMPTY then
      PIECE_VALUE.getD victim.natAbs 0 * 10 -
        PIECE_VALUE.getD (boardGet game.board move.fromSq).natAbs 0
    else 0
  if isPromotion move.flag then base + 800 else base

/-- `orderMoves(moves)`: sort descending by `_score`; `Array.prototype.sort`
is stable, modelled by a stable insertion sort. -/
def orderMoves (game : Position) (moves : List Move) : List Move :=
  List.insertionSort (fun a b => moveScore game a ≥ moveScore game b) moves

/-! ### Basic board lemmas -/

theorem length_boardSet (b : List Int) (s v : Int) : (boardSet b s v).length = b.length := by
  unfold boardSet; split <;> simp

theorem boardGet_boardSet_self {b : List Int} {s : Int} (v : Int) (h0 : 0 ≤ s) (h1 : s < 64)
    (hlen : b.length = 64) : boardGet (boardSet b s v) s = v := by
  have hn : s.toNat < b.length := by omega
  have hg : 0 ≤ s ∧ s < 64 := ⟨h0, h1⟩
  simp [boardGet, boardSet, hg, List.getD, List.getElem?_set, hn]

theorem boardGet_boardSet_ne {b : List Int} {s t : Int} (v : Int) (h : s ≠ t) :
    boardGet (boardSet b s v) t = boardGet b t := by
  unfold boardGet boardSet
  by_cases hs : 0 ≤ s ∧ s < 64
  · by_cases ht : 0 ≤ t ∧ t < 64
    · have hne : s.toNat ≠ t.toNat := by omega
      simp [hs, ht, List.getD, List.getElem?_set, hne]
    · simp [hs, ht]
  · simp [hs]

theorem board_ext {b c : List Int} (hb : b.length = 64) (hc : c.length = 64)
    (h : ∀ s : Int, 0 ≤ s → s < 64 → boardGet b s = boardGet c s) : b = c := by
  apply List.ext_getElem (by omega)
  intro i h1 h2
  have hi : (i : Int) < 64 := by omega
  have := h i (by omega) hi
  simpa [boardGet, List.getD, List.getElem?_eq_getElem, h1, h2,
    (by omega : 0 ≤ (i : Int) ∧ (i : Int) < 64), Int.toNat_ofNat] using this

/-! ### C10: undo with an empty history -/

/-- C10: calling `undoMove` when the undo log is empty is a silent no-op:
it returns the position completely unchanged. -/
theorem undoMove_empty_history (p : Position) (h : p.history = []) : undoMove p = p := by
  unfold undoMove
  rw [h]

theorem undoMove_empty_history_witness : reset.history = [] ∧ undoMove reset = reset :=
  ⟨rfl, undoMove_empty_history reset rfl⟩

/-! ### C6: position fingerprints and threefold repetition -/

theorem positionKey_core_only (p q : Position) (hb : q.board = p.board) (ht : q.turn = p.turn)
    (hc : q.castling = p.castling) (he : q.epSquare = p.epSquare) :
    positionKey q = positionKey p := by
  unfold positionKey
  rw [hb, ht, hc, he]

theorem repetitionScan_iff (cur : String) (l : List String) : ∀ c : Nat, c < 3 →
    (repetitionScan cur l c = true ↔ 3 ≤ c + l.count cur) := by
  induction l with
  | nil => intro c hc; simp [repetitionScan]; omega
  | cons pos rest ih =>
    intro c hc
    simp only [repetitionScan]
    split_ifs with hp h3 h3
    · have hcnt : (pos :: rest).count cur = rest.count cur + 1 := by
        simp [List.count_cons, hp]
      exact ⟨fun _ => by omega, fun _ => rfl⟩
    · rw [ih (c + 1) (by omega)]
      have hcnt : (pos :: rest).count cur = rest.count cur + 1 := by
        simp [List.count_cons, hp]
      omega
    · exact absurd h3 (by omega)
    · rw [ih c hc]
      have hcnt : (pos :: rest).count cur = rest.count cur := by
        simp [List.count_cons, hp]
      omega


theorem isThreefoldRepetition_iff (p : Position) :
    isThreefoldRepetition p = true ↔ 3 ≤ p.positionHistory.count (positionKey p) := by
  unfold isThreefoldRepetition
  simpa using repetitionScan_iff (positionKey p) p.positionHistory 0 (by omega)

theorem positionKey_mem_after_executeMove (p : Position) (m : Move) :
    positionKey (executeMove p m).2 ∈ (executeMove p m).2.positionHistory := by
  unfold executeMove
  simp only []
  rw [positionKey_core_only (makeMove (moveToAlgebraicS p m).2 m) _ rfl rfl rfl rfl]
  exact List.mem_append_right _ (List.mem_singleton_self _)

/-- C6: `positionKey` depends only on piece placement, side to move, castling
rights and the en-passant square (positions differing only in the clocks or
histories get equal keys); `isThreefoldRepetition` is true exactly when the
current key occurs at least 3 times in the fingerprint history; and after
`executeMove` the history includes the current position's key. -/
theorem positionKey_repetition_spec (p q : Position) (m : Move)
    (hb : q.board = p.board) (ht : q.turn = p.turn) (hc : q.castling = p.castling)
    (he : q.epSquare = p.epSquare) :
    positionKey q = positionKey p ∧
    (isThreefoldRepetition p = true ↔ 3 ≤ p.positionHistory.count (positionKey p)) ∧
    positionKey (executeMove p m).2 ∈ (executeMove p m).2.positionHistory :=
  ⟨positionKey_core_only p q hb ht hc he, isThreefoldRepetition_iff p,
   positionKey_mem_after_executeMove p m⟩

theorem positionKey_repetition_spec_witness :
    ({ reset with halfMoveClock := 55, fullMoveNumber := 90 } : Position).board = reset.board ∧
    positionKey { reset with halfMoveClock := 55, fullMoveNumber := 90 } = positionKey reset ∧
    (isThreefoldRepetition reset = true ↔ 3 ≤ reset.positionHistory.count (positionKey reset)) ∧
    positionKey (executeMove reset (Move.mk 52 36 0)).2 ∈
      (executeMove reset (Move.mk 52 36 0)).2.positionHistory :=
  ⟨rfl, (positionKey_repetition_spec reset { reset with halfMoveClock := 55, fullMoveNumber := 90 }
    (Move.mk 52 36 0) rfl rfl rfl rfl).1,
   (positionKey_repetition_spec reset reset (Move.mk 52 36 0) rfl rfl rfl rfl).2.1,
   (positionKey_repetition_spec reset reset (Move.mk 52 36 0) rfl rfl rfl rfl).2.2⟩

/-! ### C7: insufficient material -/

theorem one_king_single {x : Int × Int}
    (h : List.countP (fun t => decide (t.1 = K)) [x] = 1) : x.1 = K := by
  by_cases hx : x.1 = K
  · exact hx
  · simp [List.countP_cons, hx] at h

theorem one_king_pair {u v : Int × Int}
    (h : List.countP (fun t => decide (t.1 = K)) [u, v] = 1) :
    (u.1 = K ∧ v.1 ≠ K) ∨ (u.1 ≠ K ∧ v.1 = K) := by
  by_cases hu : u.1 = K <;> by_cases hv : v.1 = K <;>
    simp [List.countP_cons, hu, hv] at h ⊢

theorem find_nonking_pair {u v : Int × Int}
    (h : List.countP (fun t => decide (t.1 = K)) [u, v] = 1) :
    (u.1 = K ∧ [u, v].find? (fun pc => decide (pc.1 ≠ K)) = some v) ∨
    (u.1 ≠ K ∧ [u, v].find? (fun pc => decide (pc.1 ≠ K)) = some u) := by
  rcases one_king_pair h with ⟨hu, hv⟩ | ⟨hu, hv⟩
  · exact Or.inl ⟨hu, by simp [List.find?, hu, hv]⟩
  · exact Or.inr ⟨hu, by simp [List.find?, hu]⟩

theorem find_bishop_pair {u v x : Int × Int}
    (h : List.countP (fun t => decide (t.1 = K)) [u, v] = 1)
    (hx : x ∈ [u, v]) (hxB : x.1 = B) :
    [u, v].find? (fun pc => decide (pc.1 = B)) = some x := by
  simp only [List.mem_cons, List.mem_singleton, List.not_mem_nil, or_false] at hx
  rcases hx with rfl | rfl
  · simp [List.find?, hxB]
  · by_cases hu : u.1 = B
    · exfalso
      rcases one_king_pair h with ⟨huK, _⟩ | ⟨_, hvK⟩
      · rw [huK] at hu; exact absurd hu (by decide)
      · rw [hvK] at hxB; exact absurd hxB (by decide)
    · simp [List.find?, hu, hxB]

/-- C7: with exactly one king on each side, `isInsufficientMaterial` is true
exactly for King vs King, King plus a single bishop or knight vs bare King
(either side), and both sides having exactly two pieces where each side holds
a bishop and the two bishops stand on same-colored squares (equal parity of
file + rank); every other combination (e.g. King + two knights vs King)
returns false. -/
theorem insufficientMaterial_spec (g : Position)
    (hw : (piecesOfSide g WHITE).countP (fun x => decide (x.1 = K)) = 1)
    (hb : (piecesOfSide g BLACK).countP (fun x => decide (x.1 = K)) = 1) :
    isInsufficientMaterial g = true ↔
      ((piecesOfSide g WHITE).map Prod.fst = [K] ∧ (piecesOfSide g BLACK).map Prod.fst = [K])
      ∨ ((piecesOfSide g WHITE).map Prod.fst = [K] ∧ (piecesOfSide g BLACK).length = 2 ∧
          ∃ x ∈ piecesOfSide g BLACK, x.1 = B ∨ x.1 = N)
      ∨ ((piecesOfSide g BLACK).map Prod.fst = [K] ∧ (piecesOfSide g WHITE).length = 2 ∧
          ∃ x ∈ piecesOfSide g WHITE, x.1 = B ∨ x.1 = N)
      ∨ ((piecesOfSide g WHITE).length = 2 ∧ (piecesOfSide g BLACK).length = 2 ∧
          ∃ x ∈ piecesOfSide g WHITE, ∃ y ∈ piecesOfSide g BLACK, x.1 = B ∧ y.1 = B ∧
            (fileOf x.2 + rankOf x.2) % 2 = (fileOf y.2 + rankOf y.2) % 2) := by
  simp only [isInsufficientMaterial]
  generalize hG : piecesOfSide g WHITE = w at hw ⊢
  generalize hH : piecesOfSide g BLACK = b at hb ⊢
  clear hG hH g
  by_cases h11 : w.length = 1 ∧ b.length = 1
  · rw [if_pos h11]
    obtain ⟨x, hx⟩ := List.length_eq_one.mp h11.1
    obtain ⟨y, hy⟩ := List.length_eq_one.mp h11.2
    subst hx hy
    exact ⟨fun _ => Or.inl ⟨by simp [one_king_single hw], by simp [one_king_single hb]⟩,
      fun _ => rfl⟩
  · rw [if_neg h11]
    have hR1 : ¬(w.map Prod.fst = [K] ∧ b.map Prod.fst = [K]) := by
      rintro ⟨h1, h2⟩
      exact h11 ⟨by simpa using congrArg List.length h1, by simpa using congrArg List.length h2⟩
    rw [or_iff_right hR1, Bool.or_eq_true, Bool.or_eq_true, or_assoc]
    refine or_congr ?_ (or_congr ?_ ?_)
    · by_cases hlen : w.length = 1 ∧ b.length = 2
      · rw [if_pos hlen]
        obtain ⟨x, hx⟩ := List.length_eq_one.mp hlen.1
        subst hx
        obtain ⟨u, v, huv⟩ := List.length_eq_two.mp hlen.2
        subst huv
        rcases find_nonking_pair hb with ⟨huK, hfind⟩ | ⟨huK, hfind⟩
        · rw [hfind]
          constructor
          · intro h
            exact ⟨by simp [one_king_single hw], rfl, v, by simp, by simpa using h⟩
          · rintro ⟨-, -, z, hz, hzt⟩
            simp only [List.mem_cons, List.mem_singleton, List.not_mem_nil, or_false] at hz
            rcases hz with rfl | rfl
            · exfalso
              rcases hzt with h' | h' <;> rw [huK] at h' <;> exact absurd h' (by decide)
            · simpa using hzt
        · rw [hfind]
          have hvK : v.1 = K := by
            rcases one_king_pair hb with ⟨h1, _⟩ | ⟨_, h2⟩
            · exact absurd h1 huK
            · exact h2
          constructor
          · intro h
            exact ⟨by simp [one_king_single hw], rfl, u, by simp, by simpa using h⟩
          · rintro ⟨-, -, z, hz, hzt⟩
            simp only [List.mem_cons, List.mem_singleton, List.not_mem_nil, or_false] at hz
            rcases hz with rfl | rfl
            · simpa using hzt
            · exfalso
              rcases hzt with h' | h' <;> rw [hvK] at h' <;> exact absurd h' (by decide)
      · rw [if_neg hlen]
        constructor
        · intro h; cases h
        · rintro ⟨hmap, hlen2, -⟩
          exact absurd ⟨by simpa using congrArg List.length hmap, hlen2⟩ hlen
    · by_cases hlen : b.length = 1 ∧ w.length = 2
      · rw [if_pos hlen]
        obtain ⟨x, hx⟩ := List.length_eq_one.mp hlen.1
        subst hx
        obtain ⟨u, v, huv⟩ := List.length_eq_two.mp hlen.2
        subst huv
        rcases find_nonking_pair hw with ⟨huK, hfind⟩ | ⟨huK, hfind⟩
        · rw [hfind]
          constructor
          · intro h
            exact ⟨by simp [one_king_single hb], rfl, v, by simp, by simpa using h⟩
          · rintro ⟨-, -, z, hz, hzt⟩
            simp only [List.mem_cons, List.mem_singleton, List.not_mem_nil, or_false] at hz
            rcases hz with rfl | rfl
            · exfalso
              rcases hzt with h' | h' <;> rw [huK] at h' <;> exact absurd h' (by decide)
            · simpa using hzt
        · rw [hfind]
          have hvK : v.1 = K := by
            rcases one_king_pair hw with ⟨h1, _⟩ | ⟨_, h2⟩
            · exact absurd h1 huK
            · exact h2
          constructor
          · intro h
            exact ⟨by simp [one_king_single hb], rfl, u, by simp, by simpa using h⟩
          · rintro ⟨-, -, z, hz, hzt⟩
            simp only [List.mem_cons, List.mem_singleton, List.not_mem_nil, or_false] at hz
            rcases hz with rfl | rfl
            · simpa using hzt
            · exfalso
              rcases hzt with h' | h' <;> rw [hvK] at h' <;> exact absurd h' (by decide)
      · rw [if_neg hlen]
        constructor
        · intro h; cases h
        · rintro ⟨hmap, hlen2, -⟩
          exact absurd ⟨by simpa using congrArg List.length hmap, hlen2⟩ hlen
    · by_cases hlen : w.length = 2 ∧ b.length = 2
      · rw [if_pos hlen]
        obtain ⟨u1, v1, huv1⟩ := List.length_eq_two.mp hlen.1
        obtain ⟨u2, v2, huv2⟩ := List.length_eq_two.mp hlen.2
        subst huv1 huv2
        constructor
        · intro h
          rcases hfw : [u1, v1].find? (fun pc => decide (pc.1 = B)) with _ | wb
          · rw [hfw] at h; cases h
          · rcases hfb : [u2, v2].find? (fun pc => decide (pc.1 = B)) with _ | bb
            · rw [hfw, hfb] at h; cases h
            · rw [hfw, hfb] at h
              refine ⟨rfl, rfl, wb, List.mem_of_find?_eq_some hfw, bb,
                List.mem_of_find?_eq_some hfb, ?_, ?_, by simpa using h⟩
              · simpa using List.find?_some hfw
              · simpa using List.find?_some hfb
        · rintro ⟨-, -, x, hx, y, hy, hxB, hyB, hpar⟩
          rw [find_bishop_pair hw hx hxB, find_bishop_pair hb hy hyB]
          simpa using hpar
      · rw [if_neg hlen]
        constructor
        · intro h; cases h
        · rintro ⟨h1, h2, -⟩
          exact absurd ⟨h1, h2⟩ hlen

/-- King e1 vs king e8, nothing else on the board. -/
def kvkPos : Position :=
  { board := ((List.replicate 64 (0 : Int)).set 4 (-6)).set 60 6,
    turn := 1, castling := [false, false, false, false], epSquare := -1,
    halfMoveClock := 0, fullMoveNumber := 1,
    history := [], positionHistory := [], moveList := [] }

theorem insufficientMaterial_spec_witness :
    (piecesOfSide kvkPos WHITE).countP (fun x => decide (x.1 = K)) = 1 ∧
    (piecesOfSide kvkPos BLACK).countP (fun x => decide (x.1 = K)) = 1 ∧
    (isInsufficientMaterial kvkPos = true ↔
      ((piecesOfSide kvkPos WHITE).map Prod.fst = [K] ∧
        (piecesOfSide kvkPos BLACK).map Prod.fst = [K])
      ∨ ((piecesOfSide kvkPos WHITE).map Prod.fst = [K] ∧
          (piecesOfSide kvkPos BLACK).length = 2 ∧
          ∃ x ∈ piecesOfSide kvkPos BLACK, x.1 = B ∨ x.1 = N)
      ∨ ((piecesOfSide kvkPos BLACK).map Prod.fst = [K] ∧
          (piecesOfSide kvkPos WHITE).length = 2 ∧
          ∃ x ∈ piecesOfSide kvkPos WHITE, x.1 = B ∨ x.1 = N)
      ∨ ((piecesOfSide kvkPos WHITE).length = 2 ∧ (piecesOfSide kvkPos BLACK).length = 2 ∧
          ∃ x ∈ piecesOfSide kvkPos WHITE, ∃ y ∈ piecesOfSide kvkPos BLACK, x.1 = B ∧ y.1 = B ∧
            (fileOf x.2 + rankOf x.2) % 2 = (fileOf y.2 + rankOf y.2) % 2)) :=
  ⟨by decide, by decide, insufficientMaterial_spec kvkPos (by decide) (by decide)⟩

/-! ### C9: AI move ordering -/

/-- White pawn e5, black pawn d5 that has just double-pushed (en-passant
square d6), kings e1/e8; white to move, so the en-passant capture e5xd6 is
available. -/
def epPos : Position :=
  { board := (((((List.replicate 64 (0 : Int)).set 4 (-6)).set 60 6).set 28 1).set 27 (-1)),
    turn := 1, castling := [false, false, false, false], epSquare := 19,
    halfMoveClock := 0, fullMoveNumber := 3,
    history := [], positionHistory := [], moveList := [] }

/-- C9 counterexample: the legal en-passant capture e5xd6 captures a pawn
(the black pawn on d5), but `orderMoves` gives it ordering score 0 because
its destination square is empty, not the MVV-LVA value
`100 * 10 - 100 = 900` the claim assigns to every capture. -/
theorem orderMoves_ep_counterexample :
    (Move.mk 28 19 FLAG_EP_CAPTURE) ∈ generateLegalMoves epPos ∧
    boardGet epPos.board 27 = -P ∧
    moveScore epPos (Move.mk 28 19 FLAG_EP_CAPTURE) = 0 ∧
    PIECE_VALUE.getD (-P : Int).natAbs 0 * 10 - PIECE_VALUE.getD (P : Int).natAbs 0 = 900 ∧
    (0 : Int) ≠ 900 := by
  refine ⟨by decide, by decide, by decide, by decide, by decide⟩

/-- Inserting a move whose score is `s` with `orderedInsert` puts it in
front of the equal-score moves already present: the inserted element only
passes over strictly higher-scored elements. -/
theorem filter_orderedInsert_eq (g : Position) (s : Int) (a : Move) (l : List Move)
    (ha : moveScore g a = s) :
    (List.orderedInsert (fun x y => moveScore g x ≥ moveScore g y) a l).filter
        (fun m => decide (moveScore g m = s)) =
      a :: l.filter (fun m => decide (moveScore g m = s)) := by
  subst ha
  induction l with
  | nil => simp [List.orderedInsert]
  | cons b l ih =>
    by_cases hr : moveScore g a ≥ moveScore g b
    · simp [List.orderedInsert, hr, List.filter]
    · have hb : ¬ (moveScore g b = moveScore g a) := by omega
      simp only [List.orderedInsert, if_neg hr]
      rw [List.filter_cons_of_neg (by simpa using hb), ih,
        List.filter_cons_of_neg (by simpa using hb)]

/-- `orderedInsert` of a move whose score is not `s` leaves the subsequence
of score-`s` moves unchanged. -/
theorem filter_orderedInsert_ne (g : Position) (s : Int) (a : Move) (l : List Move)
    (ha : ¬ (moveScore g a = s)) :
    (List.orderedInsert (fun x y => moveScore g x ≥ moveScore g y) a l).filter
        (fun m => decide (moveScore g m = s)) =
      l.filter (fun m => decide (moveScore g m = s)) := by
  induction l with
  | nil => simp [List.orderedInsert, ha]
  | cons b l ih =>
    by_cases hr : moveScore g a ≥ moveScore g b
    · simp [List.orderedInsert, hr, List.filter, ha]
    · simp only [List.orderedInsert, if_neg hr]
      by_cases hb : moveScore g b = s
      · rw [List.filter_cons_of_pos (by simpa using hb), ih,
          List.filter_cons_of_pos (by simpa using hb)]
      · rw [List.filter_cons_of_neg (by simpa using hb), ih,
          List.filter_cons_of_neg (by simpa using hb)]

/-- Stability of `orderMoves`: for every score value, the subsequence of
moves carrying that score is exactly the one of the input list (same
elements, same relative order). -/
theorem orderMoves_filter_stable (g : Position) (ms : List Move) (s : Int) :
    (orderMoves g ms).filter (fun m => decide (moveScore g m = s)) =
      ms.filter (fun m => decide (moveScore g m = s)) := by
  simp only [orderMoves]
  induction ms with
  | nil => rfl
  | cons m ms ih =>
    simp only [List.insertionSort]
    by_cases hm : moveScore g m = s
    · rw [filter_orderedInsert_eq g s m _ hm, ih,
        List.filter_cons_of_pos (by simpa using hm)]
    · rw [filter_orderedInsert_ne g s m _ hm, ih,
        List.filter_cons_of_neg (by simpa using hm)]

/-- C9 (amended): `orderMoves` sorts the list stably in descending
`_score` order, where the score of a move whose victim sits on the
destination square is victim value × 10 − attacker value, every promotion
move gets a flat additional +800, and all other moves — including
en-passant captures, whose destination square is empty — score 0. -/
theorem orderMoves_spec (g : Position) (ms : List Move) :
    (orderMoves g ms).Perm ms ∧
    (orderMoves g ms).Sorted (fun a b => moveScore g a ≥ moveScore g b) ∧
    (∀ s : Int, (orderMoves g ms).filter (fun m => decide (moveScore g m = s)) =
      ms.filter (fun m => decide (moveScore g m = s))) ∧
    (∀ m : Move, boardGet g.board m.toSq ≠ EMPTY → isPromotion m.flag = false →
      moveScore g m = PIECE_VALUE.getD (boardGet g.board m.toSq).natAbs 0 * 10 -
        PIECE_VALUE.getD (boardGet g.board m.fromSq).natAbs 0) ∧
    (∀ m : Move, boardGet g.board m.toSq ≠ EMPTY → isPromotion m.flag = true →
      moveScore g m = PIECE_VALUE.getD (boardGet g.board m.toSq).natAbs 0 * 10 -
        PIECE_VALUE.getD (boardGet g.board m.fromSq).natAbs 0 + 800) ∧
    (∀ m : Move, boardGet g.board m.toSq = EMPTY → isPromotion m.flag = false →
      moveScore g m = 0) ∧
    (∀ m : Move, boardGet g.board m.toSq = EMPTY → isPromotion m.flag = true →
      moveScore g m = 800) := by
  haveI : IsTotal Move (fun a b => moveScore g a ≥ moveScore g b) :=
    ⟨fun a b => le_total (moveScore g b) (moveScore g a)⟩
  haveI : IsTrans Move (fun a b => moveScore g a ≥ moveScore g b) :=
    ⟨fun _ _ _ hab hbc => le_trans hbc hab⟩
  refine ⟨List.perm_insertionSort _ ms, List.sorted_insertionSort _ ms,
    orderMoves_filter_stable g ms, ?_, ?_, ?_, ?_⟩
  · intro m hvic hnp
    simp [moveScore, hvic, hnp]
  · intro m hvic hp
    simp [moveScore, hvic, hp]
  · intro m hemp hnp
    simp [moveScore, hemp, hnp]
  · intro m hemp hp
    simp [moveScore, hemp, hp]

theorem orderMoves_spec_witness :
    boardGet epPos.board (27 : Int) ≠ EMPTY ∧
    boardGet epPos.board (19 : Int) = EMPTY ∧
    boardGet epPos.board (3 : Int) = EMPTY ∧
    boardGet epPos.board (4 : Int) ≠ EMPTY ∧
    isPromotion (FLAG_NORMAL : Int) = false ∧
    isPromotion (FLAG_EP_CAPTURE : Int) = false ∧
    isPromotion (FLAG_PROMO_Q : Int) = true ∧
    ((orderMoves epPos [Move.mk 28 19 FLAG_EP_CAPTURE, Move.mk 28 27 FLAG_NORMAL,
        Move.mk 28 20 FLAG_NORMAL]).Perm
      [Move.mk 28 19 FLAG_EP_CAPTURE, Move.mk 28 27 FLAG_NORMAL,
        Move.mk 28 20 FLAG_NORMAL] ∧
     (orderMoves epPos [Move.mk 28 19 FLAG_EP_CAPTURE, Move.mk 28 27 FLAG_NORMAL,
        Move.mk 28 20 FLAG_NORMAL]).Sorted
      (fun a b => moveScore epPos a ≥ moveScore epPos b) ∧
     (orderMoves epPos [Move.mk 28 19 FLAG_EP_CAPTURE, Move.mk 28 27 FLAG_NORMAL,
        Move.mk 28 20 FLAG_NORMAL]).filter (fun m => decide (moveScore epPos m = 0)) =
      ([Move.mk 28 19 FLAG_EP_CAPTURE, Move.mk 28 27 FLAG_NORMAL,
        Move.mk 28 20 FLAG_NORMAL] : List Move).filter
        (fun m => decide (moveScore epPos m = 0)) ∧
     moveScore epPos (Move.mk 28 27 FLAG_NORMAL) =
      PIECE_VALUE.getD (boardGet epPos.board (Move.mk 28 27 FLAG_NORMAL).toSq).natAbs 0 * 10 -
        PIECE_VALUE.getD (boardGet epPos.board (Move.mk 28 27 FLAG_NORMAL).fromSq).natAbs 0 ∧
     moveScore epPos (Move.mk 12 4 FLAG_PROMO_Q) =
      PIECE_VALUE.getD (boardGet epPos.board (Move.mk 12 4 FLAG_PROMO_Q).toSq).natAbs 0 * 10 -
        PIECE_VALUE.getD (boardGet epPos.board (Move.mk 12 4 FLAG_PROMO_Q).fromSq).natAbs 0
        + 800 ∧
     moveScore epPos (Move.mk 28 19 FLAG_EP_CAPTURE) = 0 ∧
     moveScore epPos (Move.mk 12 3 FLAG_PROMO_Q) = 800) := by
  have h := orderMoves_spec epPos [Move.mk 28 19 FLAG_EP_CAPTURE,
    Move.mk 28 27 FLAG_NORMAL, Move.mk 28 20 FLAG_NORMAL]
  exact ⟨by decide, by decide, by decide, by decide, by decide, by decide, by decide,
    h.1, h.2.1, h.2.2.1 0,
    h.2.2.2.1 (Move.mk 28 27 FLAG_NORMAL) (by decide) (by decide),
    h.2.2.2.2.1 (Move.mk 12 4 FLAG_PROMO_Q) (by decide) (by decide),
    h.2.2.2.2.2.1 (Move.mk 28 19 FLAG_EP_CAPTURE) (by decide) (by decide),
    h.2.2.2.2.2.2 (Move.mk 12 3 FLAG_PROMO_Q) (by decide) (by decide)⟩

/-! ### Play invariant, per-move facts and the make/undo round trip -/

/-- State invariant maintained by legal play: board shape, a two-valued
turn, rooks on their corner squares while the matching castling right is
still set, and a well-formed en-passant square. -/
def Inv (g : Position) : Prop :=
  g.board.length = 64 ∧
  (g.turn = WHITE ∨ g.turn = BLACK) ∧
  (g.castling.getD 0 false = true → boardGet g.board 63 = R) ∧
  (g.castling.getD 1 false = true → boardGet g.board 56 = R) ∧
  (g.castling.getD 2 false = true → boardGet g.board 7 = -R) ∧
  (g.castling.getD 3 false = true → boardGet g.board 0 = -R) ∧
  (g.epSquare = -1 ∨
    (g.turn = WHITE ∧ 16 ≤ g.epSquare ∧ g.epSquare ≤ 23 ∧ boardGet g.board g.epSquare = EMPTY) ∨
    (g.turn = BLACK ∧ 40 ≤ g.epSquare ∧ g.epSquare ≤ 47 ∧ boardGet g.board g.epSquare = EMPTY))

/-- Facts that hold of every pseudo-legal move, by construction of the
generator; exactly what the make/undo round trip needs. -/
def MoveOK (g : Position) (m : Move) : Prop :=
  0 ≤ m.fromSq ∧ m.fromSq < 64 ∧ 0 ≤ m.toSq ∧ m.toSq < 64 ∧ m.fromSq ≠ m.toSq ∧
  boardGet g.board m.fromSq ≠ EMPTY ∧
  ((boardGet g.board m.fromSq > 0 ∧ g.turn = WHITE) ∨
   (boardGet g.board m.fromSq < 0 ∧ g.turn = BLACK)) ∧
  (isPromotion m.flag = true → |boardGet g.board m.fromSq| = P) ∧
  (m.flag = FLAG_EP_CAPTURE →
    m.toSq = g.epSquare ∧ |boardGet g.board m.fromSq| = P ∧
    m.fromSq ≠ m.toSq + 8 ∧ m.fromSq ≠ m.toSq - 8) ∧
  (m.flag = FLAG_DOUBLE_PUSH → |boardGet g.board m.fromSq| = P ∧
    ((g.turn = WHITE ∧ 48 ≤ m.fromSq ∧ m.fromSq ≤ 55 ∧ m.toSq = m.fromSq - 16 ∧
       boardGet g.board (m.fromSq - 8) = EMPTY ∧ boardGet g.board m.toSq = EMPTY) ∨
     (g.turn = BLACK ∧ 8 ≤ m.fromSq ∧ m.fromSq ≤ 15 ∧ m.toSq = m.fromSq + 16 ∧
       boardGet g.board (m.fromSq + 8) = EMPTY ∧ boardGet g.board m.toSq = EMPTY))) ∧
  (m.flag = FLAG_CASTLE_K →
    boardGet g.board m.fromSq = K * g.turn ∧
    ((g.turn = WHITE ∧ m.fromSq = 60 ∧ m.toSq = 62 ∧ boardGet g.board 61 = EMPTY ∧
       boardGet g.board 62 = EMPTY ∧ g.castling.getD 0 false = true) ∨
     (g.turn = BLACK ∧ m.fromSq = 4 ∧ m.toSq = 6 ∧ boardGet g.board 5 = EMPTY ∧
       boardGet g.board 6 = EMPTY ∧ g.castling.getD 2 false = true))) ∧
  (m.flag = FLAG_CASTLE_Q →
    boardGet g.board m.fromSq = K * g.turn ∧
    ((g.turn = WHITE ∧ m.fromSq = 60 ∧ m.toSq = 58 ∧ boardGet g.board 59 = EMPTY ∧
       boardGet g.board 58 = EMPTY ∧ boardGet g.board 57 = EMPTY ∧
       g.castling.getD 1 false = true) ∨
     (g.turn = BLACK ∧ m.fromSq = 4 ∧ m.toSq = 2 ∧ boardGet g.board 3 = EMPTY ∧
       boardGet g.board 2 = EMPTY ∧ boardGet g.board 1 = EMPTY ∧
       g.castling.getD 3 false = true)))



theorem boardLen64 {b : List Int} (h : b.length = 64) (s v : Int) :
    (boardSet b s v).length = 64 := by rw [length_boardSet]; exact h

theorem roundtrip_default {bd : List Int} {tn : Int} {ca : List Bool} {ep hmc fmn : Int}
    {hist : List Undo} {ph ml : List String} {m : Move}
    (hlen : bd.length = 64)
    (hf0 : 0 ≤ m.fromSq) (hf1 : m.fromSq < 64) (ht0 : 0 ≤ m.toSq) (ht1 : m.toSq < 64)
    (hft : m.fromSq ≠ m.toSq)
    (hsign : (boardGet bd m.fromSq > 0 ∧ tn = WHITE) ∨ (boardGet bd m.fromSq < 0 ∧ tn = BLACK))
    (hEP : ¬ m.flag = FLAG_EP_CAPTURE) (hCK : ¬ m.flag = FLAG_CASTLE_K)
    (hCQ : ¬ m.flag = FLAG_CASTLE_Q) (hP' : isPromotion m.flag = false) :
    undoMove (makeMove ⟨bd, tn, ca, ep, hmc, fmn, hist, ph, ml⟩ m) =
      ⟨bd, tn, ca, ep, hmc, fmn, hist, ph, ml⟩ := by
  have hcolor : (if boardGet bd m.fromSq > 0 then WHITE else BLACK) = tn := by
    rcases hsign with ⟨hp, ht⟩ | ⟨hp, ht⟩
    · rw [if_pos hp, ht]
    · rw [if_neg (by omega), ht]
  simp only [makeMove, hEP, hCK, hCQ, hP', hcolor, if_neg, if_false, Bool.false_eq_true,
    ite_false]
  simp only [undoMove, hEP, hCK, hCQ, hP', Bool.false_eq_true, ite_false, neg_neg]
  have hread : boardGet (boardSet (boardSet bd m.toSq (boardGet bd m.fromSq)) m.fromSq EMPTY)
      m.toSq = boardGet bd m.fromSq := by
    rw [boardGet_boardSet_ne _ hft, boardGet_boardSet_self _ ht0 ht1 hlen]
  rw [hread]
  simp only [Position.mk.injEq]
  refine ⟨?_, ?_⟩
  · split_ifs with hcap
    · apply board_ext (by simp only [length_boardSet]; exact hlen) hlen
      intro t t0 t1
      by_cases h2 : t = m.toSq
      · subst h2
        rw [boardGet_boardSet_self _ t0 t1 (by simp only [length_boardSet]; exact hlen)]
      · by_cases h1 : t = m.fromSq
        · subst h1
          rw [boardGet_boardSet_ne _ (Ne.symm h2), boardGet_boardSet_ne _ (Ne.symm h2),
            boardGet_boardSet_self _ t0 t1 (by simp only [length_boardSet]; exact hlen)]
        · rw [boardGet_boardSet_ne _ (Ne.symm h2), boardGet_boardSet_ne _ (Ne.symm h2),
            boardGet_boardSet_ne _ (Ne.symm h1), boardGet_boardSet_ne _ (Ne.symm h1),
            boardGet_boardSet_ne _ (Ne.symm h2)]
    · apply board_ext (by simp only [length_boardSet]; exact hlen) hlen
      intro t t0 t1
      by_cases h2 : t = m.toSq
      · subst h2
        rw [boardGet_boardSet_self _ t0 t1 (by simp only [length_boardSet]; exact hlen)]
        exact (not_not.mp hcap).symm
      · by_cases h1 : t = m.fromSq
        · subst h1
          rw [boardGet_boardSet_ne _ (Ne.symm h2),
            boardGet_boardSet_self _ t0 t1 (by simp only [length_boardSet]; exact hlen)]
        · rw [boardGet_boardSet_ne _ (Ne.symm h2), boardGet_boardSet_ne _ (Ne.symm h1),
            boardGet_boardSet_ne _ (Ne.symm h1), boardGet_boardSet_ne _ (Ne.symm h2)]
  · simp only [true_and, and_true]
    split_ifs with hB
    · omega
    · rfl


theorem roundtrip_promo {bd : List Int} {tn : Int} {ca : List Bool} {ep hmc fmn : Int}
    {hist : List Undo} {ph ml : List String} {m : Move}
    (hlen : bd.length = 64)
    (hf0 : 0 ≤ m.fromSq) (hf1 : m.fromSq < 64) (ht0 : 0 ≤ m.toSq) (ht1 : m.toSq < 64)
    (hft : m.fromSq ≠ m.toSq)
    (hsign : (boardGet bd m.fromSq > 0 ∧ tn = WHITE) ∨ (boardGet bd m.fromSq < 0 ∧ tn = BLACK))
    (hP : isPromotion m.flag = true)
    (hpawn : |boardGet bd m.fromSq| = P) :
    undoMove (makeMove ⟨bd, tn, ca, ep, hmc, fmn, hist, ph, ml⟩ m) =
      ⟨bd, tn, ca, ep, hmc, fmn, hist, ph, ml⟩ := by
  have hflag : (5 : Int) ≤ m.flag := by
    simpa [isPromotion, FLAG_PROMO_N] using hP
  have hEP : ¬ m.flag = FLAG_EP_CAPTURE := by simp only [FLAG_EP_CAPTURE]; omega
  have hCK : ¬ m.flag = FLAG_CASTLE_K := by simp only [FLAG_CASTLE_K]; omega
  have hCQ : ¬ m.flag = FLAG_CASTLE_Q := by simp only [FLAG_CASTLE_Q]; omega
  have hcolor : (if boardGet bd m.fromSq > 0 then WHITE else BLACK) = tn := by
    rcases hsign with ⟨hp, ht⟩ | ⟨hp, ht⟩
    · rw [if_pos hp, ht]
    · rw [if_neg (by omega), ht]
  have hpc : P * tn = boardGet bd m.fromSq := by
    have habs : boardGet bd m.fromSq = 1 ∨ boardGet bd m.fromSq = -1 := by
      rcases abs_eq (le_of_lt one_pos) |>.mp (by simpa [P] using hpawn) with h | h
      · exact Or.inl h
      · exact Or.inr h
    rcases hsign with ⟨hp, ht⟩ | ⟨hp, ht⟩ <;> rcases habs with h | h <;>
      simp [P, WHITE, BLACK, ht, h] at * <;> omega
  simp only [makeMove, hEP, hCK, hCQ, hP, hcolor, Bool.false_eq_true, ite_false, ite_true,
    if_true]
  simp only [undoMove, hEP, hCK, hCQ, hP, Bool.false_eq_true, ite_false, ite_true, if_true,
    neg_neg]
  have hread : boardGet (boardSet (boardSet (boardSet (boardSet bd m.toSq
        (boardGet bd m.fromSq)) m.fromSq EMPTY) m.toSq
        (promopiece m.flag * tn)) m.toSq (P * tn)) m.toSq = P * tn := by
    rw [boardGet_boardSet_self _ ht0 ht1 (by simp only [length_boardSet]; exact hlen)]
  rw [hread]
  simp only [Position.mk.injEq]
  refine ⟨?_, ?_⟩
  · split_ifs with hcap
    · apply board_ext (by simp only [length_boardSet]; exact hlen) hlen
      intro t t0 t1
      by_cases h2 : t = m.toSq
      · subst h2
        rw [boardGet_boardSet_self _ t0 t1 (by simp only [length_boardSet]; exact hlen)]
      · by_cases h1 : t = m.fromSq
        · subst h1
          rw [boardGet_boardSet_ne _ (Ne.symm h2), boardGet_boardSet_ne _ (Ne.symm h2),
            boardGet_boardSet_self _ t0 t1 (by simp only [length_boardSet]; exact hlen)]
          exact hpc
        · rw [boardGet_boardSet_ne _ (Ne.symm h2), boardGet_boardSet_ne _ (Ne.symm h2),
            boardGet_boardSet_ne _ (Ne.symm h1), boardGet_boardSet_ne _ (Ne.symm h2),
            boardGet_boardSet_ne _ (Ne.symm h2), boardGet_boardSet_ne _ (Ne.symm h1),
            boardGet_boardSet_ne _ (Ne.symm h2)]
    · apply board_ext (by simp only [length_boardSet]; exact hlen) hlen
      intro t t0 t1
      by_cases h2 : t = m.toSq
      · subst h2
        rw [boardGet_boardSet_self _ t0 t1 (by simp only [length_boardSet]; exact hlen)]
        exact (not_not.mp hcap).symm
      · by_cases h1 : t = m.fromSq
        · subst h1
          rw [boardGet_boardSet_ne _ (Ne.symm h2),
            boardGet_boardSet_self _ t0 t1 (by simp only [length_boardSet]; exact hlen)]
          exact hpc
        · rw [boardGet_boardSet_ne _ (Ne.symm h2), boardGet_boardSet_ne _ (Ne.symm h1),
            boardGet_boardSet_ne _ (Ne.symm h2), boardGet_boardSet_ne _ (Ne.symm h2),
            boardGet_boardSet_ne _ (Ne.symm h1), boardGet_boardSet_ne _ (Ne.symm h2)]
  · simp only [true_and, and_true]
    split_ifs with hB
    · omega
    · rfl


theorem roundtrip_castleK_white {bd : List Int} {ca : List Bool} {ep hmc fmn : Int}
    {hist : List Undo} {ph ml : List String}
    (hlen : bd.length = 64) (hp : boardGet bd 60 > 0) (h61 : boardGet bd 61 = EMPTY) (h62 : boardGet bd 62 = EMPTY)
    (hcorner : boardGet bd 63 = R) :
    undoMove (makeMove ⟨bd, WHITE, ca, ep, hmc, fmn, hist, ph, ml⟩ ⟨60, 62, FLAG_CASTLE_K⟩) =
      ⟨bd, WHITE, ca, ep, hmc, fmn, hist, ph, ml⟩ := by
  have hcolor : (if boardGet bd (60 : Int) > 0 then WHITE else BLACK) = WHITE := if_pos hp
  simp only [makeMove, undoMove, hcolor,
    (by decide : ¬ (FLAG_CASTLE_K : Int) = FLAG_EP_CAPTURE),
    (by decide : isPromotion FLAG_CASTLE_K = false),
    (by decide : ¬ (FLAG_CASTLE_K : Int) = FLAG_CASTLE_Q),
    (by decide : sq 5 (0 : Int) = 61), (by decide : sq 7 (0 : Int) = 63),
    (by decide : sq 3 (0 : Int) = 59), (by decide : sq 0 (0 : Int) = 56),
    (by decide : ¬ (WHITE = BLACK)), (by decide : ¬ ((EMPTY : Int) ≠ EMPTY)),
    Bool.false_eq_true, ite_false, ite_true, neg_neg, h62]
  have hread : boardGet (boardSet (boardSet (boardSet (boardSet bd 62 (boardGet bd 60)) 60 EMPTY) 61 (R * WHITE)) 63 EMPTY) 62 = boardGet bd 60 := by
    rw [boardGet_boardSet_ne _ (by decide : (63 : Int) ≠ 62),
      boardGet_boardSet_ne _ (by decide : (61 : Int) ≠ 62),
      boardGet_boardSet_ne _ (by decide : (60 : Int) ≠ 62),
      boardGet_boardSet_self _ (by decide) (by decide) hlen]
  rw [hread]
  simp only [Position.mk.injEq]
  refine ⟨?_, ?_⟩
  · apply board_ext (by simp only [length_boardSet]; exact hlen) hlen
    intro t t0 t1
    by_cases ht61 : t = 61
    · subst ht61
      rw [boardGet_boardSet_self _ (by decide) (by decide) (by simp only [length_boardSet]; exact hlen)]
      exact h61.symm
    by_cases ht63 : t = 63
    · subst ht63
      rw [boardGet_boardSet_ne _ (by decide : (61 : Int) ≠ 63),
        boardGet_boardSet_self _ (by decide) (by decide) (by simp only [length_boardSet]; exact hlen)]
      rw [hcorner]; decide
    by_cases ht62 : t = 62
    · subst ht62
      rw [boardGet_boardSet_ne _ (by decide : (61 : Int) ≠ 62),
        boardGet_boardSet_ne _ (by decide : (63 : Int) ≠ 62),
        boardGet_boardSet_self _ (by decide) (by decide) (by simp only [length_boardSet]; exact hlen)]
      exact h62.symm
    by_cases ht60 : t = 60
    · subst ht60
      rw [boardGet_boardSet_ne _ (by decide : (61 : Int) ≠ 60),
        boardGet_boardSet_ne _ (by decide : (63 : Int) ≠ 60),
        boardGet_boardSet_ne _ (by decide : (62 : Int) ≠ 60),
        boardGet_boardSet_self _ (by decide) (by decide) (by simp only [length_boardSet]; exact hlen)]
    rw [boardGet_boardSet_ne _ (Ne.symm ht61),
      boardGet_boardSet_ne _ (Ne.symm ht63),
      boardGet_boardSet_ne _ (Ne.symm ht62),
      boardGet_boardSet_ne _ (Ne.symm ht60),
      boardGet_boardSet_ne _ (Ne.symm ht63),
      boardGet_boardSet_ne _ (Ne.symm ht61),
      boardGet_boardSet_ne _ (Ne.symm ht60),
      boardGet_boardSet_ne _ (Ne.symm ht62)]
  · simp

theorem roundtrip_castleK_black {bd : List Int} {ca : List Bool} {ep hmc fmn : Int}
    {hist : List Undo} {ph ml : List String}
    (hlen : bd.length = 64) (hp : boardGet bd 4 < 0) (h5 : boardGet bd 5 = EMPTY) (h6 : boardGet bd 6 = EMPTY)
    (hcorner : boardGet bd 7 = -R) :
    undoMove (makeMove ⟨bd, BLACK, ca, ep, hmc, fmn, hist, ph, ml⟩ ⟨4, 6, FLAG_CASTLE_K⟩) =
      ⟨bd, BLACK, ca, ep, hmc, fmn, hist, ph, ml⟩ := by
  have hcolor : (if boardGet bd (4 : Int) > 0 then WHITE else BLACK) = BLACK := if_neg (by omega)
  simp only [makeMove, undoMove, hcolor,
    (by decide : ¬ (FLAG_CASTLE_K : Int) = FLAG_EP_CAPTURE),
    (by decide : isPromotion FLAG_CASTLE_K = false),
    (by decide : ¬ (FLAG_CASTLE_K : Int) = FLAG_CASTLE_Q),
    (by decide : sq 5 (7 : Int) = 5), (by decide : sq 7 (7 : Int) = 7),
    (by decide : sq 3 (7 : Int) = 3), (by decide : sq 0 (7 : Int) = 0),
    (by decide : ¬ (BLACK = WHITE)), (by decide : ¬ ((EMPTY : Int) ≠ EMPTY)),
    Bool.false_eq_true, ite_false, ite_true, neg_neg, h6]
  have hread : boardGet (boardSet (boardSet (boardSet (boardSet bd 6 (boardGet bd 4)) 4 EMPTY) 5 (R * BLACK)) 7 EMPTY) 6 = boardGet bd 4 := by
    rw [boardGet_boardSet_ne _ (by decide : (7 : Int) ≠ 6),
      boardGet_boardSet_ne _ (by decide : (5 : Int) ≠ 6),
      boardGet_boardSet_ne _ (by decide : (4 : Int) ≠ 6),
      boardGet_boardSet_self _ (by decide) (by decide) hlen]
  rw [hread]
  simp only [Position.mk.injEq]
  refine ⟨?_, ?_⟩
  · apply board_ext (by simp only [length_boardSet]; exact hlen) hlen
    intro t t0 t1
    by_cases ht5 : t = 5
    · subst ht5
      rw [boardGet_boardSet_self _ (by decide) (by decide) (by simp only [length_boardSet]; exact hlen)]
      exact h5.symm
    by_cases ht7 : t = 7
    · subst ht7
      rw [boardGet_boardSet_ne _ (by decide : (5 : Int) ≠ 7),
        boardGet_boardSet_self _ (by decide) (by decide) (by simp only [length_boardSet]; exact hlen)]
      rw [hcorner]; decide
    by_cases ht6 : t = 6
    · subst ht6
      rw [boardGet_boardSet_ne _ (by decide : (5 : Int) ≠ 6),
        boardGet_boardSet_ne _ (by decide : (7 : Int) ≠ 6),
        boardGet_boardSet_self _ (by decide) (by decide) (by simp only [length_boardSet]; exact hlen)]
      exact h6.symm
    by_cases ht4 : t = 4
    · subst ht4
      rw [boardGet_boardSet_ne _ (by decide : (5 : Int) ≠ 4),
        boardGet_boardSet_ne _ (by decide : (7 : Int) ≠ 4),
        boardGet_boardSet_ne _ (by decide : (6 : Int) ≠ 4),
        boardGet_boardSet_self _ (by decide) (by decide) (by simp only [length_boardSet]; exact hlen)]
    rw [boardGet_boardSet_ne _ (Ne.symm ht5),
      boardGet_boardSet_ne _ (Ne.symm ht7),
      boardGet_boardSet_ne _ (Ne.symm ht6),
      boardGet_boardSet_ne _ (Ne.symm ht4),
      boardGet_boardSet_ne _ (Ne.symm ht7),
      boardGet_boardSet_ne _ (Ne.symm ht5),
      boardGet_boardSet_ne _ (Ne.symm ht4),
      boardGet_boardSet_ne _ (Ne.symm ht6)]
  · simp

theorem roundtrip_castleQ_white {bd : List Int} {ca : List Bool} {ep hmc fmn : Int}
    {hist : List Undo} {ph ml : List String}
    (hlen : bd.length = 64) (hp : boardGet bd 60 > 0) (h57 : boardGet bd 57 = EMPTY) (h58 : boardGet bd 58 = EMPTY) (h59 : boardGet bd 59 = EMPTY)
    (hcorner : boardGet bd 56 = R) :
    undoMove (makeMove ⟨bd, WHITE, ca, ep, hmc, fmn, hist, ph, ml⟩ ⟨60, 58, FLAG_CASTLE_Q⟩) =
      ⟨bd, WHITE, ca, ep, hmc, fmn, hist, ph, ml⟩ := by
  have hcolor : (if boardGet bd (60 : Int) > 0 then WHITE else BLACK) = WHITE := if_pos hp
  simp only [makeMove, undoMove, hcolor,
    (by decide : ¬ (FLAG_CASTLE_Q : Int) = FLAG_EP_CAPTURE),
    (by decide : isPromotion FLAG_CASTLE_Q = false),
    (by decide : ¬ (FLAG_CASTLE_Q : Int) = FLAG_CASTLE_K),
    (by decide : sq 5 (0 : Int) = 61), (by decide : sq 7 (0 : Int) = 63),
    (by decide : sq 3 (0 : Int) = 59), (by decide : sq 0 (0 : Int) = 56),
    (by decide : ¬ (WHITE = BLACK)), (by decide : ¬ ((EMPTY : Int) ≠ EMPTY)),
    Bool.false_eq_true, ite_false, ite_true, neg_neg, h58]
  have hread : boardGet (boardSet (boardSet (boardSet (boardSet bd 58 (boardGet bd 60)) 60 EMPTY) 59 (R * WHITE)) 56 EMPTY) 58 = boardGet bd 60 := by
    rw [boardGet_boardSet_ne _ (by decide : (56 : Int) ≠ 58),
      boardGet_boardSet_ne _ (by decide : (59 : Int) ≠ 58),
      boardGet_boardSet_ne _ (by decide : (60 : Int) ≠ 58),
      boardGet_boardSet_self _ (by decide) (by decide) hlen]
  rw [hread]
  simp only [Position.mk.injEq]
  refine ⟨?_, ?_⟩
  · apply board_ext (by simp only [length_boardSet]; exact hlen) hlen
    intro t t0 t1
    by_cases ht59 : t = 59
    · subst ht59
      rw [boardGet_boardSet_self _ (by decide) (by decide) (by simp only [length_boardSet]; exact hlen)]
      exact h59.symm
    by_cases ht56 : t = 56
    · subst ht56
      rw [boardGet_boardSet_ne _ (by decide : (59 : Int) ≠ 56),
        boardGet_boardSet_self _ (by decide) (by decide) (by simp only [length_boardSet]; exact hlen)]
      rw [hcorner]; decide
    by_cases ht58 : t = 58
    · subst ht58
      rw [boardGet_boardSet_ne _ (by decide : (59 : Int) ≠ 58),
        boardGet_boardSet_ne _ (by decide : (56 : Int) ≠ 58),
        boardGet_boardSet_self _ (by decide) (by decide) (by simp only [length_boardSet]; exact hlen)]
      exact h58.symm
    by_cases ht60 : t = 60
    · subst ht60
      rw [boardGet_boardSet_ne _ (by decide : (59 : Int) ≠ 60),
        boardGet_boardSet_ne _ (by decide : (56 : Int) ≠ 60),
        boardGet_boardSet_ne _ (by decide : (58 : Int) ≠ 60),
        boardGet_boardSet_self _ (by decide) (by decide) (by simp only [length_boardSet]; exact hlen)]
    rw [boardGet_boardSet_ne _ (Ne.symm ht59),
      boardGet_boardSet_ne _ (Ne.symm ht56),
      boardGet_boardSet_ne _ (Ne.symm ht58),
      boardGet_boardSet_ne _ (Ne.symm ht60),
      boardGet_boardSet_ne _ (Ne.symm ht56),
      boardGet_boardSet_ne _ (Ne.symm ht59),
      boardGet_boardSet_ne _ (Ne.symm ht60),
      boardGet_boardSet_ne _ (Ne.symm ht58)]
  · simp

theorem roundtrip_castleQ_black {bd : List Int} {ca : List Bool} {ep hmc fmn : Int}
    {hist : List Undo} {ph ml : List String}
    (hlen : bd.length = 64) (hp : boardGet bd 4 < 0) (h1 : boardGet bd 1 = EMPTY) (h2 : boardGet bd 2 = EMPTY) (h3 : boardGet bd 3 = EMPTY)
    (hcorner : boardGet bd 0 = -R) :
    undoMove (makeMove ⟨bd, BLACK, ca, ep, hmc, fmn, hist, ph, ml⟩ ⟨4, 2, FLAG_CASTLE_Q⟩) =
      ⟨bd, BLACK, ca, ep, hmc, fmn, hist, ph, ml⟩ := by
  have hcolor : (if boardGet bd (4 : Int) > 0 then WHITE else BLACK) = BLACK := if_neg (by omega)
  simp only [makeMove, undoMove, hcolor,
    (by decide : ¬ (FLAG_CASTLE_Q : Int) = FLAG_EP_CAPTURE),
    (by decide : isPromotion FLAG_CASTLE_Q = false),
    (by decide : ¬ (FLAG_CASTLE_Q : Int) = FLAG_CASTLE_K),
    (by decide : sq 5 (7 : Int) = 5), (by decide : sq 7 (7 : Int) = 7),
    (by decide : sq 3 (7 : Int) = 3), (by decide : sq 0 (7 : Int) = 0),
    (by decide : ¬ (BLACK = WHITE)), (by decide : ¬ ((EMPTY : Int) ≠ EMPTY)),
    Bool.false_eq_true, ite_false, ite_true, neg_neg, h2]
  have hread : boardGet (boardSet (boardSet (boardSet (boardSet bd 2 (boardGet bd 4)) 4 EMPTY) 3 (R * BLACK)) 0 EMPTY) 2 = boardGet bd 4 := by
    rw [boardGet_boardSet_ne _ (by decide : (0 : Int) ≠ 2),
      boardGet_boardSet_ne _ (by decide : (3 : Int) ≠ 2),
      boardGet_boardSet_ne _ (by decide : (4 : Int) ≠ 2),
      boardGet_boardSet_self _ (by decide) (by decide) hlen]
  rw [hread]
  simp only [Position.mk.injEq]
  refine ⟨?_, ?_⟩
  · apply board_ext (by simp only [length_boardSet]; exact hlen) hlen
    intro t t0 t1
    by_cases ht3 : t = 3
    · subst ht3
      rw [boardGet_boardSet_self _ (by decide) (by decide) (by simp only [length_boardSet]; exact hlen)]
      exact h3.symm
    by_cases ht0 : t = 0
    · subst ht0
      rw [boardGet_boardSet_ne _ (by decide : (3 : Int) ≠ 0),
        boardGet_boardSet_self _ (by decide) (by decide) (by simp only [length_boardSet]; exact hlen)]
      rw [hcorner]; decide
    by_cases ht2 : t = 2
    · subst ht2
      rw [boardGet_boardSet_ne _ (by decide : (3 : Int) ≠ 2),
        boardGet_boardSet_ne _ (by decide : (0 : Int) ≠ 2),
        boardGet_boardSet_self _ (by decide) (by decide) (by simp only [length_boardSet]; exact hlen)]
      exact h2.symm
    by_cases ht4 : t = 4
    · subst ht4
      rw [boardGet_boardSet_ne _ (by decide : (3 : Int) ≠ 4),
        boardGet_boardSet_ne _ (by decide : (0 : Int) ≠ 4),
        boardGet_boardSet_ne _ (by decide : (2 : Int) ≠ 4),
        boardGet_boardSet_self _ (by decide) (by decide) (by simp only [length_boardSet]; exact hlen)]
    rw [boardGet_boardSet_ne _ (Ne.symm ht3),
      boardGet_boardSet_ne _ (Ne.symm ht0),
      boardGet_boardSet_ne _ (Ne.symm ht2),
      boardGet_boardSet_ne _ (Ne.symm ht4),
      boardGet_boardSet_ne _ (Ne.symm ht0),
      boardGet_boardSet_ne _ (Ne.symm ht3),
      boardGet_boardSet_ne _ (Ne.symm ht4),
      boardGet_boardSet_ne _ (Ne.symm ht2)]
  · simp


theorem roundtrip_ep_white {bd : List Int} {ca : List Bool} {ep hmc fmn : Int}
    {hist : List Undo} {ph ml : List String} {frm tsq : Int}
    (hlen : bd.length = 64) (hf0 : 0 ≤ frm) (hf1 : frm < 64)
    (ht16 : 16 ≤ tsq) (ht23 : tsq ≤ 23) (hft : frm ≠ tsq) (hcap_ne : frm ≠ tsq + 8)
    (hp : boardGet bd frm > 0) (hE : boardGet bd tsq = EMPTY) :
    undoMove (makeMove ⟨bd, WHITE, ca, ep, hmc, fmn, hist, ph, ml⟩ ⟨frm, tsq, FLAG_EP_CAPTURE⟩) =
      ⟨bd, WHITE, ca, ep, hmc, fmn, hist, ph, ml⟩ := by
  have hcolor : (if boardGet bd frm > 0 then WHITE else BLACK) = WHITE := if_pos hp
  simp only [makeMove, undoMove, hcolor,
    (by decide : ¬ (FLAG_EP_CAPTURE : Int) = FLAG_CASTLE_K),
    (by decide : ¬ (FLAG_EP_CAPTURE : Int) = FLAG_CASTLE_Q),
    (by decide : isPromotion FLAG_EP_CAPTURE = false),
    (by decide : ¬ (WHITE = BLACK)),
    Bool.false_eq_true, ite_false, ite_true, neg_neg]
  have hread : boardGet (boardSet (boardSet (boardSet bd (tsq + 8) EMPTY) tsq
      (boardGet bd frm)) frm EMPTY) tsq = boardGet bd frm := by
    rw [boardGet_boardSet_ne _ hft,
      boardGet_boardSet_self _ (by omega) (by omega) (by simp only [length_boardSet]; exact hlen)]
  rw [hread]
  simp only [Position.mk.injEq]
  refine ⟨?_, ?_⟩
  · apply board_ext (by simp only [length_boardSet]; exact hlen) hlen
    intro t t0 t1
    by_cases htc : t = tsq + 8
    · subst htc
      rw [boardGet_boardSet_self _ (by omega) (by omega)
        (by simp only [length_boardSet]; exact hlen)]
    · by_cases h2 : t = tsq
      · rw [h2]
        rw [boardGet_boardSet_ne _ (by omega : tsq + 8 ≠ tsq),
          boardGet_boardSet_self _ (by omega) (by omega)
            (by simp only [length_boardSet]; exact hlen)]
        exact hE.symm
      · by_cases h1 : t = frm
        · rw [h1]
          rw [boardGet_boardSet_ne _ (Ne.symm hcap_ne), boardGet_boardSet_ne _ (Ne.symm hft),
            boardGet_boardSet_self _ hf0 hf1 (by simp only [length_boardSet]; exact hlen)]
        · rw [boardGet_boardSet_ne _ (Ne.symm htc), boardGet_boardSet_ne _ (Ne.symm h2),
            boardGet_boardSet_ne _ (Ne.symm h1), boardGet_boardSet_ne _ (Ne.symm h1),
            boardGet_boardSet_ne _ (Ne.symm h2), boardGet_boardSet_ne _ (Ne.symm htc)]
  · simp

theorem roundtrip_ep_black {bd : List Int} {ca : List Bool} {ep hmc fmn : Int}
    {hist : List Undo} {ph ml : List String} {frm tsq : Int}
    (hlen : bd.length = 64) (hf0 : 0 ≤ frm) (hf1 : frm < 64)
    (ht40 : 40 ≤ tsq) (ht47 : tsq ≤ 47) (hft : frm ≠ tsq) (hcap_ne : frm ≠ tsq - 8)
    (hp : boardGet bd frm < 0) (hE : boardGet bd tsq = EMPTY) :
    undoMove (makeMove ⟨bd, BLACK, ca, ep, hmc, fmn, hist, ph, ml⟩ ⟨frm, tsq, FLAG_EP_CAPTURE⟩) =
      ⟨bd, BLACK, ca, ep, hmc, fmn, hist, ph, ml⟩ := by
  have hcolor : (if boardGet bd frm > 0 then WHITE else BLACK) = BLACK := if_neg (by omega)
  simp only [makeMove, undoMove, hcolor,
    (by decide : ¬ (FLAG_EP_CAPTURE : Int) = FLAG_CASTLE_K),
    (by decide : ¬ (FLAG_EP_CAPTURE : Int) = FLAG_CASTLE_Q),
    (by decide : isPromotion FLAG_EP_CAPTURE = false),
    (by decide : ¬ (BLACK = WHITE)),
    Bool.false_eq_true, ite_false, ite_true, neg_neg]
  have hread : boardGet (boardSet (boardSet (boardSet bd (tsq + -8) EMPTY) tsq
      (boardGet bd frm)) frm EMPTY) tsq = boardGet bd frm := by
    rw [boardGet_boardSet_ne _ hft,
      boardGet_boardSet_self _ (by omega) (by omega) (by simp only [length_boardSet]; exact hlen)]
  rw [hread]
  simp only [Position.mk.injEq]
  refine ⟨?_, ?_⟩
  · apply board_ext (by simp only [length_boardSet]; exact hlen) hlen
    intro t t0 t1
    by_cases htc : t = tsq + -8
    · subst htc
      rw [boardGet_boardSet_self _ (by omega) (by omega)
        (by simp only [length_boardSet]; exact hlen)]
    · by_cases h2 : t = tsq
      · rw [h2]
        rw [boardGet_boardSet_ne _ (by omega : tsq + -8 ≠ tsq),
          boardGet_boardSet_self _ (by omega) (by omega)
            (by simp only [length_boardSet]; exact hlen)]
        exact hE.symm
      · by_cases h1 : t = frm
        · rw [h1]
          rw [boardGet_boardSet_ne _ (by omega : tsq + -8 ≠ frm),
            boardGet_boardSet_ne _ (Ne.symm hft),
            boardGet_boardSet_self _ hf0 hf1 (by simp only [length_boardSet]; exact hlen)]
        · rw [boardGet_boardSet_ne _ (Ne.symm htc), boardGet_boardSet_ne _ (Ne.symm h2),
            boardGet_boardSet_ne _ (Ne.symm h1), boardGet_boardSet_ne _ (Ne.symm h1),
            boardGet_boardSet_ne _ (Ne.symm h2), boardGet_boardSet_ne _ (Ne.symm htc)]
  · simp


theorem roundtrip {g : Position} {m : Move} (hInv : Inv g) (hOK : MoveOK g m) :
    undoMove (makeMove g m) = g := by
  obtain ⟨bd, tn, ca, ep, hmc, fmn, hist, ph, ml⟩ := g
  obtain ⟨mf, mt, mfl⟩ := m
  simp only [Inv, MoveOK] at hInv hOK
  obtain ⟨hlen, hturn, hc0, hc1, hc2, hc3, hepInv⟩ := hInv
  obtain ⟨hf0, hf1, ht0, ht1, hft, hne0, hsign, hpromo, hepok, hdpok, hckok, hcqok⟩ := hOK
  by_cases hPr : isPromotion mfl = true
  · exact roundtrip_promo hlen hf0 hf1 ht0 ht1 hft hsign hPr (hpromo hPr)
  · have hPr' : isPromotion mfl = false := by simpa using hPr
    by_cases hEP : mfl = FLAG_EP_CAPTURE
    · subst hEP
      obtain ⟨hto_ep, hpawn, hne1, hne2⟩ := hepok rfl
      rcases hepInv with hneg | ⟨htn, hlo, hhi, hEsq⟩ | ⟨htn, hlo, hhi, hEsq⟩
      · exfalso; omega
      · subst htn
        subst hto_ep
        have hp : boardGet bd mf > 0 := by
          rcases hsign with ⟨hp, -⟩ | ⟨-, habs⟩
          · exact hp
          · exact absurd habs (by decide)
        exact roundtrip_ep_white hlen hf0 hf1 (by omega) (by omega) hft hne1 hp hEsq
      · subst htn
        subst hto_ep
        have hp : boardGet bd mf < 0 := by
          rcases hsign with ⟨-, habs⟩ | ⟨hp, -⟩
          · exact absurd habs (by decide)
          · exact hp
        have hb : undoMove (makeMove ⟨bd, BLACK, ca, mt, hmc, fmn, hist, ph, ml⟩
            ⟨mf, mt, FLAG_EP_CAPTURE⟩) = ⟨bd, BLACK, ca, mt, hmc, fmn, hist, ph, ml⟩ :=
          roundtrip_ep_black hlen hf0 hf1 (by omega) (by omega) hft (by omega) hp hEsq
        exact hb
    · by_cases hCK : mfl = FLAG_CASTLE_K
      · subst hCK
        obtain ⟨hking, hcase⟩ := hckok rfl
        rcases hcase with ⟨htn, hfrom, hto, h61, h62, hflag⟩ | ⟨htn, hfrom, hto, h5, h6, hflag⟩
        · subst htn; subst hfrom; subst hto
          exact roundtrip_castleK_white hlen (by rw [hking]; decide) h61 h62 (hc0 hflag)
        · subst htn; subst hfrom; subst hto
          exact roundtrip_castleK_black hlen (by rw [hking]; decide) h5 h6 (hc2 hflag)
      · by_cases hCQ : mfl = FLAG_CASTLE_Q
        · subst hCQ
          obtain ⟨hking, hcase⟩ := hcqok rfl
          rcases hcase with ⟨htn, hfrom, hto, h59, h58, h57, hflag⟩ |
            ⟨htn, hfrom, hto, h3, h2, h1, hflag⟩
          · subst htn; subst hfrom; subst hto
            exact roundtrip_castleQ_white hlen (by rw [hking]; decide) h57 h58 h59 (hc1 hflag)
          · subst htn; subst hfrom; subst hto
            exact roundtrip_castleQ_black hlen (by rw [hking]; decide) h1 h2 h3 (hc3 hflag)
        · exact roundtrip_default hlen hf0 hf1 ht0 ht1 hft hsign hEP hCK hCQ hPr'

/-! ### Soundness of the move generators -/

theorem mem_squares_bounds {s : Int} (h : s ∈ squares) : 0 ≤ s ∧ s < 64 := by
  simp only [squares, List.mem_map, List.mem_range, Int.ofNat_eq_coe] at h
  obtain ⟨n, hn, rfl⟩ := h
  omega

theorem mem_squares_of_bounds {s : Int} (h0 : 0 ≤ s) (h1 : s < 64) : s ∈ squares := by
  simp only [squares, List.mem_map, List.mem_range, Int.ofNat_eq_coe]
  exact ⟨s.toNat, by omega, by omega⟩

theorem genPawnMoves_sound {g : Position} {s color : Int} {m : Move}
    (hs0 : 0 ≤ s) (hs1 : s < 64) (hcol : color = WHITE ∨ color = BLACK)
    (hm : m ∈ genPawnMoves g s color) :
    m.fromSq = s ∧ 0 ≤ m.toSq ∧ m.toSq < 64 ∧ m.toSq ≠ s ∧
    (m.flag = FLAG_NORMAL ∨ m.flag = FLAG_DOUBLE_PUSH ∨ m.flag = FLAG_EP_CAPTURE ∨
      isPromotion m.flag = true) ∧
    (m.flag = FLAG_EP_CAPTURE →
      m.toSq = g.epSquare ∧ m.fromSq ≠ m.toSq + 8 ∧ m.fromSq ≠ m.toSq - 8) ∧
    (m.flag = FLAG_DOUBLE_PUSH →
      ((color = WHITE ∧ 48 ≤ s ∧ s ≤ 55 ∧ m.toSq = s - 16 ∧
         boardGet g.board (s - 8) = EMPTY ∧ boardGet g.board m.toSq = EMPTY) ∨
       (color = BLACK ∧ 8 ≤ s ∧ s ≤ 15 ∧ m.toSq = s + 16 ∧
         boardGet g.board (s + 8) = EMPTY ∧ boardGet g.board m.toSq = EMPTY))) := by
  rcases hcol with hcol | hcol <;> subst hcol
  · simp only [genPawnMoves, WHITE, BLACK, reduceIte, (by decide : ¬ ((-1 : Int) = 1)),
      (by decide : ¬ ((1 : Int) = -1)), List.mem_append, List.mem_flatMap,
      List.mem_cons, List.not_mem_nil, or_false, List.mem_singleton] at hm
    rcases hm with hm | hm
    · split_ifs at hm with h1 h2 h3
      · simp only [List.mem_cons, List.not_mem_nil, or_false] at hm
        rcases hm with rfl | rfl | rfl | rfl <;>
          exact ⟨rfl, by dsimp only; omega, by dsimp only; omega, by dsimp only; omega,
            by dsimp only; decide, by intro h; dsimp only at h; exact absurd h (by decide),
            by intro h; dsimp only at h; exact absurd h (by decide)⟩
      · simp only [List.mem_cons, List.not_mem_nil, or_false] at hm
        rcases hm with rfl | rfl
        · exact ⟨rfl, by dsimp only; omega, by dsimp only; omega, by dsimp only; omega,
            by dsimp only; decide, by intro h; dsimp only at h; exact absurd h (by decide),
            by intro h; dsimp only at h; exact absurd h (by decide)⟩
        · obtain ⟨h5, h6⟩ := h3
          have hsr : 48 ≤ s ∧ s ≤ 55 := by
            simp only [rankOf] at h5
            omega
          refine ⟨rfl, by dsimp only; omega, by dsimp only; omega, by dsimp only; omega,
            by dsimp only; decide, by intro h; dsimp only at h; exact absurd h (by decide),
            fun _ => ?_⟩
          dsimp only
          exact Or.inl ⟨rfl, by omega, by omega, by omega,
            by simpa using h1.2.2, by simpa using h6⟩
      · simp only [List.mem_cons, List.not_mem_nil, or_false] at hm
        rcases hm with rfl
        exact ⟨rfl, by dsimp only; omega, by dsimp only; omega, by dsimp only; omega,
          by dsimp only; decide, by intro h; dsimp only at h; exact absurd h (by decide),
          by intro h; dsimp only at h; exact absurd h (by decide)⟩
      · exact absurd hm (List.not_mem_nil m)
    · obtain ⟨df, hdf, hm⟩ := hm
      try simp only [List.mem_cons, List.not_mem_nil, or_false] at hdf
      rcases hdf with rfl | rfl
      ·
        split_ifs at hm with h1 h2 h3 h4 h5
        all_goals try simp only [List.mem_append, List.mem_cons, List.not_mem_nil, or_false,
          false_or, List.mem_singleton] at hm
        all_goals try exact absurd hm (List.not_mem_nil m)
        all_goals
          first
            | (rcases hm with ((rfl | rfl | rfl | rfl) | rfl))
            | (rcases hm with (rfl | rfl | rfl | rfl | rfl))
            | (rcases hm with (rfl | rfl | rfl | rfl))
            | (rcases hm with (rfl | rfl))
            | (rcases hm with rfl)
        all_goals
          first
            | exact ⟨rfl, by dsimp only; omega, by dsimp only; omega, by dsimp only; omega,
                by dsimp only; decide,
                by intro h; dsimp only at h; exact absurd h (by decide),
                by intro h; dsimp only at h; exact absurd h (by decide)⟩
            | exact ⟨rfl, by dsimp only; omega, by dsimp only; omega, by dsimp only; omega,
                by dsimp only; decide,
                fun _ => ⟨by dsimp only; omega, by dsimp only; omega, by dsimp only; omega⟩,
                by intro h; dsimp only at h; exact absurd h (by decide)⟩
      ·
        split_ifs at hm with h1 h2 h3 h4 h5
        all_goals try simp only [List.mem_append, List.mem_cons, List.not_mem_nil, or_false,
          false_or, List.mem_singleton] at hm
        all_goals try exact absurd hm (List.not_mem_nil m)
        all_goals
          first
            | (rcases hm with ((rfl | rfl | rfl | rfl) | rfl))
            | (rcases hm with (rfl | rfl | rfl | rfl | rfl))
            | (rcases hm with (rfl | rfl | rfl | rfl))
            | (rcases hm with (rfl | rfl))
            | (rcases hm with rfl)
        all_goals
          first
            | exact ⟨rfl, by dsimp only; omega, by dsimp only; omega, by dsimp only; omega,
                by dsimp only; decide,
                by intro h; dsimp only at h; exact absurd h (by decide),
                by intro h; dsimp only at h; exact absurd h (by decide)⟩
            | exact ⟨rfl, by dsimp only; omega, by dsimp only; omega, by dsimp only; omega,
                by dsimp only; decide,
                fun _ => ⟨by dsimp only; omega, by dsimp only; omega, by dsimp only; omega⟩,
                by intro h; dsimp only at h; exact absurd h (by decide)⟩
  · simp only [genPawnMoves, WHITE, BLACK, reduceIte, (by decide : ¬ ((-1 : Int) = 1)),
      (by decide : ¬ ((1 : Int) = -1)), List.mem_append, List.mem_flatMap,
      List.mem_cons, List.not_mem_nil, or_false, List.mem_singleton] at hm
    rcases hm with hm | hm
    · split_ifs at hm with h1 h2 h3
      · simp only [List.mem_cons, List.not_mem_nil, or_false] at hm
        rcases hm with rfl | rfl | rfl | rfl <;>
          exact ⟨rfl, by dsimp only; omega, by dsimp only; omega, by dsimp only; omega,
            by dsimp only; decide, by intro h; dsimp only at h; exact absurd h (by decide),
            by intro h; dsimp only at h; exact absurd h (by decide)⟩
      · simp only [List.mem_cons, List.not_mem_nil, or_false] at hm
        rcases hm with rfl | rfl
        · exact ⟨rfl, by dsimp only; omega, by dsimp only; omega, by dsimp only; omega,
            by dsimp only; decide, by intro h; dsimp only at h; exact absurd h (by decide),
            by intro h; dsimp only at h; exact absurd h (by decide)⟩
        · obtain ⟨h5, h6⟩ := h3
          have hsr : 8 ≤ s ∧ s ≤ 15 := by
            simp only [rankOf] at h5
            omega
          refine ⟨rfl, by dsimp only; omega, by dsimp only; omega, by dsimp only; omega,
            by dsimp only; decide, by intro h; dsimp only at h; exact absurd h (by decide),
            fun _ => ?_⟩
          dsimp only
          exact Or.inr ⟨rfl, by omega, by omega, by omega,
            by simpa using h1.2.2, by simpa using h6⟩
      · simp only [List.mem_cons, List.not_mem_nil, or_false] at hm
        rcases hm with rfl
        exact ⟨rfl, by dsimp only; omega, by dsimp only; omega, by dsimp only; omega,
          by dsimp only; decide, by intro h; dsimp only at h; exact absurd h (by decide),
          by intro h; dsimp only at h; exact absurd h (by decide)⟩
      · exact absurd hm (List.not_mem_nil m)
    · obtain ⟨df, hdf, hm⟩ := hm
      try simp only [List.mem_cons, List.not_mem_nil, or_false] at hdf
      rcases hdf with rfl | rfl
      ·
        split_ifs at hm with h1 h2 h3 h4 h5
        all_goals try simp only [List.mem_append, List.mem_cons, List.not_mem_nil, or_false,
          false_or, List.mem_singleton] at hm
        all_goals try exact absurd hm (List.not_mem_nil m)
        all_goals
          first
            | (rcases hm with ((rfl | rfl | rfl | rfl) | rfl))
            | (rcases hm with (rfl | rfl | rfl | rfl | rfl))
            | (rcases hm with (rfl | rfl | rfl | rfl))
            | (rcases hm with (rfl | rfl))
            | (rcases hm with rfl)
        all_goals
          first
            | exact ⟨rfl, by dsimp only; omega, by dsimp only; omega, by dsimp only; omega,
                by dsimp only; decide,
                by intro h; dsimp only at h; exact absurd h (by decide),
                by intro h; dsimp only at h; exact absurd h (by decide)⟩
            | exact ⟨rfl, by dsimp only; omega, by dsimp only; omega, by dsimp only; omega,
                by dsimp only; decide,
                fun _ => ⟨by dsimp only; omega, by dsimp only; omega, by dsimp only; omega⟩,
                by intro h; dsimp only at h; exact absurd h (by decide)⟩
      ·
        split_ifs at hm with h1 h2 h3 h4 h5
        all_goals try simp only [List.mem_append, List.mem_cons, List.not_mem_nil, or_false,
          false_or, List.mem_singleton] at hm
        all_goals try exact absurd hm (List.not_mem_nil m)
        all_goals
          first
            | (rcases hm with ((rfl | rfl | rfl | rfl) | rfl))
            | (rcases hm with (rfl | rfl | rfl | rfl | rfl))
            | (rcases hm with (rfl | rfl | rfl | rfl))
            | (rcases hm with (rfl | rfl))
            | (rcases hm with rfl)
        all_goals
          first
            | exact ⟨rfl, by dsimp only; omega, by dsimp only; omega, by dsimp only; omega,
                by dsimp only; decide,
                by intro h; dsimp only at h; exact absurd h (by decide),
                by intro h; dsimp only at h; exact absurd h (by decide)⟩
            | exact ⟨rfl, by dsimp only; omega, by dsimp only; omega, by dsimp only; omega,
                by dsimp only; decide,
                fun _ => ⟨by dsimp only; omega, by dsimp only; omega, by dsimp only; omega⟩,
                by intro h; dsimp only at h; exact absurd h (by decide)⟩

theorem genKnightMoves_sound {g : Position} {s color : Int} {m : Move}
    (hs0 : 0 ≤ s) (hs1 : s < 64) (hm : m ∈ genKnightMoves g s color) :
    m.fromSq = s ∧ 0 ≤ m.toSq ∧ m.toSq < 64 ∧ m.toSq ≠ s ∧ m.flag = FLAG_NORMAL := by
  simp only [genKnightMoves, KNIGHT_OFFSETS, List.mem_flatMap, List.mem_cons,
    List.not_mem_nil, or_false] at hm
  obtain ⟨off, hoff, hm⟩ := hm
  rcases hoff with (rfl | rfl | rfl | rfl | rfl | rfl | rfl | rfl) <;>
    (split_ifs at hm with h1 h2 h3 <;>
      first
        | exact absurd hm (List.not_mem_nil m)
        | (simp only [List.mem_singleton] at hm
           subst hm
           exact ⟨rfl, by dsimp only; omega, by dsimp only; omega, by dsimp only; omega, rfl⟩))

theorem sliderRay_sound {g : Position} {s color dir : Int} (hd : 0 < dir ∨ dir < 0) :
    ∀ (k : Nat) (cs : Int), (0 < dir → s ≤ cs) → (dir < 0 → cs ≤ s) →
      ∀ {m : Move}, m ∈ sliderRay g s color dir k cs →
        m.fromSq = s ∧ 0 ≤ m.toSq ∧ m.toSq < 64 ∧ m.toSq ≠ s ∧ m.flag = FLAG_NORMAL := by
  intro k
  induction k with
  | zero => intro cs _ _ m hm; exact absurd hm (List.not_mem_nil m)
  | succ n ih =>
    intro cs hi1 hi2 m hm
    simp only [sliderRay] at hm
    split_ifs at hm with h1 h2 h3 h4 h5 h6
    all_goals try exact absurd hm (List.not_mem_nil m)
    all_goals try
      (simp only [List.mem_singleton] at hm
       subst hm
       refine ⟨rfl, by dsimp only; omega, by dsimp only; omega, ?_, rfl⟩
       dsimp only
       rcases hd with h | h <;> omega)
    all_goals
      (simp only [List.mem_cons] at hm
       rcases hm with rfl | hm
       · refine ⟨rfl, by dsimp only; omega, by dsimp only; omega, ?_, rfl⟩
         dsimp only
         rcases hd with h | h <;> omega
       · exact ih (cs + dir) (by rcases hd with h | h <;> omega)
           (by rcases hd with h | h <;> omega) hm)

theorem genSliderMoves_sound {g : Position} {s color : Int} {dirs : List Int} {m : Move}
    (hdirs : ∀ d ∈ dirs, 0 < d ∨ d < 0) (hm : m ∈ genSliderMoves g s color dirs) :
    m.fromSq = s ∧ 0 ≤ m.toSq ∧ m.toSq < 64 ∧ m.toSq ≠ s ∧ m.flag = FLAG_NORMAL := by
  simp only [genSliderMoves, List.mem_flatMap] at hm
  obtain ⟨dir, hdir, hm⟩ := hm
  exact sliderRay_sound (hdirs dir hdir) 7 s (fun _ => le_refl s) (fun _ => le_refl s) hm

theorem genKingMoves_sound {g : Position} {s color : Int} {m : Move}
    (hs0 : 0 ≤ s) (hs1 : s < 64) (hcol : color = WHITE ∨ color = BLACK)
    (hm : m ∈ genKingMoves g s color) :
    m.fromSq = s ∧ 0 ≤ m.toSq ∧ m.toSq < 64 ∧ m.toSq ≠ s ∧
    (m.flag = FLAG_NORMAL ∨
     (m.flag = FLAG_CASTLE_K ∧
       ((color = WHITE ∧ m.fromSq = 60 ∧ m.toSq = 62 ∧ boardGet g.board 61 = EMPTY ∧
          boardGet g.board 62 = EMPTY ∧ g.castling.getD 0 false = true) ∨
        (color = BLACK ∧ m.fromSq = 4 ∧ m.toSq = 6 ∧ boardGet g.board 5 = EMPTY ∧
          boardGet g.board 6 = EMPTY ∧ g.castling.getD 2 false = true))) ∨
     (m.flag = FLAG_CASTLE_Q ∧
       ((color = WHITE ∧ m.fromSq = 60 ∧ m.toSq = 58 ∧ boardGet g.board 59 = EMPTY ∧
          boardGet g.board 58 = EMPTY ∧ boardGet g.board 57 = EMPTY ∧
          g.castling.getD 1 false = true) ∨
        (color = BLACK ∧ m.fromSq = 4 ∧ m.toSq = 2 ∧ boardGet g.board 3 = EMPTY ∧
          boardGet g.board 2 = EMPTY ∧ boardGet g.board 1 = EMPTY ∧
          g.castling.getD 3 false = true)))) := by
  have basic_sound : ∀ (m' : Move), m' ∈ (KING_OFFSETS.flatMap (fun off =>
      let t := s + off
      if t < 0 ∨ 64 ≤ t then []
      else if 1 < |fileOf t - fileOf s| ∨ 1 < |rankOf t - rankOf s| then []
      else
        let tp := boardGet g.board t
        if tp = EMPTY ∨ (if tp > 0 then WHITE else BLACK) ≠ color then
          [Move.mk s t FLAG_NORMAL]
        else [])) →
      m'.fromSq = s ∧ 0 ≤ m'.toSq ∧ m'.toSq < 64 ∧ m'.toSq ≠ s ∧ m'.flag = FLAG_NORMAL := by
    intro m' hm'
    simp only [KING_OFFSETS, List.mem_flatMap, List.mem_cons, List.not_mem_nil,
      or_false] at hm'
    obtain ⟨off, hoff, hm'⟩ := hm'
    rcases hoff with (rfl | rfl | rfl | rfl | rfl | rfl | rfl | rfl) <;>
      (split_ifs at hm' with h1 h2 h3 <;>
        first
          | exact absurd hm' (List.not_mem_nil m')
          | (simp only [List.mem_singleton] at hm'
             subst hm'
             exact ⟨rfl, by dsimp only; omega, by dsimp only; omega, by dsimp only; omega,
               rfl⟩))
  rcases hcol with rfl | rfl
  · simp only [genKingMoves, WHITE, BLACK, reduceIte, (by decide : sq 4 (0 : Int) = 60), (by decide : sq 5 (0 : Int) = 61),
      (by decide : sq 6 (0 : Int) = 62), (by decide : sq 3 (0 : Int) = 59),
      (by decide : sq 2 (0 : Int) = 58), (by decide : sq 1 (0 : Int) = 57)] at hm
    split_ifs at hm with h1 h2 h3 h4
    · have hb := basic_sound m (by simpa [WHITE, BLACK] using hm)
      exact ⟨hb.1, hb.2.1, hb.2.2.1, hb.2.2.2.1, Or.inl hb.2.2.2.2⟩
    · rw [not_ne_iff] at h1
      subst h1
      simp only [List.mem_append, List.mem_singleton, List.not_mem_nil, or_false] at hm
      rcases hm with (hm | hm) | hm
      · have hb := basic_sound m (by simpa [WHITE, BLACK] using hm)
        exact ⟨hb.1, hb.2.1, hb.2.2.1, hb.2.2.2.1, Or.inl hb.2.2.2.2⟩
      · obtain ⟨hflag, hea, heb, -, -, -⟩ := h2
        subst hm
        exact ⟨rfl, by decide, by decide, by decide,
          Or.inr (Or.inl ⟨rfl, Or.inl ⟨rfl, rfl, rfl, hea, heb, hflag⟩⟩)⟩
      · obtain ⟨hflag, hea, heb, hec, -, -, -⟩ := h3
        subst hm
        exact ⟨rfl, by decide, by decide, by decide,
          Or.inr (Or.inr ⟨rfl, Or.inl ⟨rfl, rfl, rfl, hea, heb, hec, hflag⟩⟩)⟩
    · rw [not_ne_iff] at h1
      subst h1
      simp only [List.mem_append, List.mem_singleton, List.not_mem_nil, or_false,
        List.append_nil] at hm
      rcases hm with hm | hm
      · have hb := basic_sound m (by simpa [WHITE, BLACK] using hm)
        exact ⟨hb.1, hb.2.1, hb.2.2.1, hb.2.2.2.1, Or.inl hb.2.2.2.2⟩
      · obtain ⟨hflag, hea, heb, -, -, -⟩ := h2
        subst hm
        exact ⟨rfl, by decide, by decide, by decide,
          Or.inr (Or.inl ⟨rfl, Or.inl ⟨rfl, rfl, rfl, hea, heb, hflag⟩⟩)⟩
    · rw [not_ne_iff] at h1
      subst h1
      simp only [List.mem_append, List.mem_singleton, List.not_mem_nil, or_false,
        List.nil_append, List.append_nil] at hm
      rcases hm with hm | hm
      · have hb := basic_sound m (by simpa [WHITE, BLACK] using hm)
        exact ⟨hb.1, hb.2.1, hb.2.2.1, hb.2.2.2.1, Or.inl hb.2.2.2.2⟩
      · obtain ⟨hflag, hea, heb, hec, -, -, -⟩ := h4
        subst hm
        exact ⟨rfl, by decide, by decide, by decide,
          Or.inr (Or.inr ⟨rfl, Or.inl ⟨rfl, rfl, rfl, hea, heb, hec, hflag⟩⟩)⟩
    · rw [not_ne_iff] at h1
      subst h1
      simp only [List.append_nil, List.nil_append] at hm
      have hb := basic_sound m (by simpa [WHITE, BLACK] using hm)
      exact ⟨hb.1, hb.2.1, hb.2.2.1, hb.2.2.2.1, Or.inl hb.2.2.2.2⟩
  · simp only [genKingMoves, WHITE, BLACK, reduceIte, (by decide : ¬ ((-1 : Int) = 1)),
      (by decide : sq 4 (7 : Int) = 4), (by decide : sq 5 (7 : Int) = 5),
      (by decide : sq 6 (7 : Int) = 6), (by decide : sq 3 (7 : Int) = 3),
      (by decide : sq 2 (7 : Int) = 2), (by decide : sq 1 (7 : Int) = 1)] at hm
    split_ifs at hm with h1 h2 h3 h4
    · have hb := basic_sound m (by simpa [WHITE, BLACK] using hm)
      exact ⟨hb.1, hb.2.1, hb.2.2.1, hb.2.2.2.1, Or.inl hb.2.2.2.2⟩
    · rw [not_ne_iff] at h1
      subst h1
      simp only [List.mem_append, List.mem_singleton, List.not_mem_nil, or_false] at hm
      rcases hm with (hm | hm) | hm
      · have hb := basic_sound m (by simpa [WHITE, BLACK] using hm)
        exact ⟨hb.1, hb.2.1, hb.2.2.1, hb.2.2.2.1, Or.inl hb.2.2.2.2⟩
      · obtain ⟨hflag, hea, heb, -, -, -⟩ := h2
        subst hm
        exact ⟨rfl, by decide, by decide, by decide,
          Or.inr (Or.inl ⟨rfl, Or.inr ⟨rfl, rfl, rfl, hea, heb, hflag⟩⟩)⟩
      · obtain ⟨hflag, hea, heb, hec, -, -, -⟩ := h3
        subst hm
        exact ⟨rfl, by decide, by decide, by decide,
          Or.inr (Or.inr ⟨rfl, Or.inr ⟨rfl, rfl, rfl, hea, heb, hec, hflag⟩⟩)⟩
    · rw [not_ne_iff] at h1
      subst h1
      simp only [List.mem_append, List.mem_singleton, List.not_mem_nil, or_false,
        List.append_nil] at hm
      rcases hm with hm | hm
      · have hb := basic_sound m (by simpa [WHITE, BLACK] using hm)
        exact ⟨hb.1, hb.2.1, hb.2.2.1, hb.2.2.2.1, Or.inl hb.2.2.2.2⟩
      · obtain ⟨hflag, hea, heb, -, -, -⟩ := h2
        subst hm
        exact ⟨rfl, by decide, by decide, by decide,
          Or.inr (Or.inl ⟨rfl, Or.inr ⟨rfl, rfl, rfl, hea, heb, hflag⟩⟩)⟩
    · rw [not_ne_iff] at h1
      subst h1
      simp only [List.mem_append, List.mem_singleton, List.not_mem_nil, or_false,
        List.nil_append, List.append_nil] at hm
      rcases hm with hm | hm
      · have hb := basic_sound m (by simpa [WHITE, BLACK] using hm)
        exact ⟨hb.1, hb.2.1, hb.2.2.1, hb.2.2.2.1, Or.inl hb.2.2.2.2⟩
      · obtain ⟨hflag, hea, heb, hec, -, -, -⟩ := h4
        subst hm
        exact ⟨rfl, by decide, by decide, by decide,
          Or.inr (Or.inr ⟨rfl, Or.inr ⟨rfl, rfl, rfl, hea, heb, hec, hflag⟩⟩)⟩
    · rw [not_ne_iff] at h1
      subst h1
      simp only [List.append_nil, List.nil_append] at hm
      have hb := basic_sound m (by simpa [WHITE, BLACK] using hm)
      exact ⟨hb.1, hb.2.1, hb.2.2.1, hb.2.2.2.1, Or.inl hb.2.2.2.2⟩

theorem movesFrom_sound {g : Position} {s : Int} {m : Move}
    (hs0 : 0 ≤ s) (hs1 : s < 64) (hturn : g.turn = WHITE ∨ g.turn = BLACK)
    (hm : m ∈ movesFrom g s) : MoveOK g m := by
  simp only [movesFrom] at hm
  set c := (if boardGet g.board s > 0 then WHITE else BLACK) with hc
  split_ifs at hm with hg hp hn hb hr hq hk
  · exact absurd hm (List.not_mem_nil m)
  all_goals push_neg at hg
  all_goals obtain ⟨hne, hcol⟩ := hg
  all_goals
    have hsign : (boardGet g.board s > 0 ∧ g.turn = WHITE) ∨
        (boardGet g.board s < 0 ∧ g.turn = BLACK) := by
      rw [hc] at hcol
      by_cases hpos : boardGet g.board s > 0
      · rw [if_pos hpos] at hcol
        exact Or.inl ⟨hpos, hcol.symm⟩
      · rw [if_neg hpos] at hcol
        refine Or.inr ⟨?_, hcol.symm⟩
        simp only [EMPTY] at hne
        omega
  -- pawn
  · obtain ⟨hf, ht0, ht1, hts, hflags, hep, hdp⟩ := genPawnMoves_sound hs0 hs1 hturn hm
    subst hf
    have hnotc : ∀ c : Int, m.flag = c →
        (c ≠ FLAG_NORMAL) → (c ≠ FLAG_DOUBLE_PUSH) → (c ≠ FLAG_EP_CAPTURE) →
        isPromotion c = false → False := by
      intro c hc d1 d2 d3 d4
      rcases hflags with h | h | h | h <;> rw [hc] at h
      · exact d1 h
      · exact d2 h
      · exact d3 h
      · rw [h] at d4
        exact absurd d4 (by decide)
    exact ⟨hs0, hs1, ht0, ht1, Ne.symm hts, hne, hsign, fun _ => hp,
      fun hfl => ⟨(hep hfl).1, hp, (hep hfl).2.1, (hep hfl).2.2⟩,
      fun hfl => ⟨hp, hdp hfl⟩,
      fun hfl => absurd (hnotc _ hfl (by decide) (by decide) (by decide) (by decide)) id,
      fun hfl => absurd (hnotc _ hfl (by decide) (by decide) (by decide) (by decide)) id⟩
  -- knight
  · obtain ⟨hf, ht0, ht1, hts, hflag⟩ := genKnightMoves_sound hs0 hs1 hm
    subst hf
    exact ⟨hs0, hs1, ht0, ht1, Ne.symm hts, hne, hsign,
      fun hpr => absurd (hflag ▸ hpr) (by decide),
      fun hfl => absurd (hflag ▸ hfl) (by decide),
      fun hfl => absurd (hflag ▸ hfl) (by decide),
      fun hfl => absurd (hflag ▸ hfl) (by decide),
      fun hfl => absurd (hflag ▸ hfl) (by decide)⟩
  -- bishop
  · obtain ⟨hf, ht0, ht1, hts, hflag⟩ := genSliderMoves_sound (by decide) hm
    subst hf
    exact ⟨hs0, hs1, ht0, ht1, Ne.symm hts, hne, hsign,
      fun hpr => absurd (hflag ▸ hpr) (by decide),
      fun hfl => absurd (hflag ▸ hfl) (by decide),
      fun hfl => absurd (hflag ▸ hfl) (by decide),
      fun hfl => absurd (hflag ▸ hfl) (by decide),
      fun hfl => absurd (hflag ▸ hfl) (by decide)⟩
  -- rook
  · obtain ⟨hf, ht0, ht1, hts, hflag⟩ := genSliderMoves_sound (by decide) hm
    subst hf
    exact ⟨hs0, hs1, ht0, ht1, Ne.symm hts, hne, hsign,
      fun hpr => absurd (hflag ▸ hpr) (by decide),
      fun hfl => absurd (hflag ▸ hfl) (by decide),
      fun hfl => absurd (hflag ▸ hfl) (by decide),
      fun hfl => absurd (hflag ▸ hfl) (by decide),
      fun hfl => absurd (hflag ▸ hfl) (by decide)⟩
  -- queen
  · obtain ⟨hf, ht0, ht1, hts, hflag⟩ := genSliderMoves_sound (by decide) hm
    subst hf
    exact ⟨hs0, hs1, ht0, ht1, Ne.symm hts, hne, hsign,
      fun hpr => absurd (hflag ▸ hpr) (by decide),
      fun hfl => absurd (hflag ▸ hfl) (by decide),
      fun hfl => absurd (hflag ▸ hfl) (by decide),
      fun hfl => absurd (hflag ▸ hfl) (by decide),
      fun hfl => absurd (hflag ▸ hfl) (by decide)⟩
  -- king
  · obtain ⟨hf, ht0, ht1, hts, hflag3⟩ := genKingMoves_sound hs0 hs1 hturn hm
    subst hf
    have hk6 : boardGet g.board m.fromSq = 6 ∨ boardGet g.board m.fromSq = -6 :=
      (abs_eq (by norm_num)).mp (by simpa [K] using hk)
    have hKval : boardGet g.board m.fromSq = K * g.turn := by
      rcases hk6 with h | h <;> rcases hsign with ⟨hpos, ht⟩ | ⟨hneg, ht⟩ <;>
        rw [ht] <;> simp only [K, WHITE, BLACK] <;> omega
    refine ⟨hs0, hs1, ht0, ht1, Ne.symm hts, hne, hsign, ?_, ?_, ?_, ?_, ?_⟩
    · intro hpr
      rcases hflag3 with h | ⟨h, -⟩ | ⟨h, -⟩ <;> rw [h] at hpr <;>
        exact absurd hpr (by decide)
    · intro hfl
      rcases hflag3 with h | ⟨h, -⟩ | ⟨h, -⟩ <;> rw [hfl] at h <;>
        exact absurd h (by decide)
    · intro hfl
      rcases hflag3 with h | ⟨h, -⟩ | ⟨h, -⟩ <;> rw [hfl] at h <;>
        exact absurd h (by decide)
    · intro hfl
      rcases hflag3 with h | ⟨-, hdat⟩ | ⟨h, -⟩
      · rw [hfl] at h
        exact absurd h (by decide)
      · exact ⟨hKval, hdat⟩
      · rw [hfl] at h
        exact absurd h (by decide)
    · intro hfl
      rcases hflag3 with h | ⟨h, -⟩ | ⟨-, hdat⟩
      · rw [hfl] at h
        exact absurd h (by decide)
      · rw [hfl] at h
        exact absurd h (by decide)
      · exact ⟨hKval, hdat⟩
  · exact absurd hm (List.not_mem_nil m)

theorem pseudo_sound {g : Position} {m : Move} (hturn : g.turn = WHITE ∨ g.turn = BLACK)
    (hm : m ∈ generatePseudoLegalMoves g) : MoveOK g m := by
  simp only [generatePseudoLegalMoves, List.mem_flatMap] at hm
  obtain ⟨s, hs, hm⟩ := hm
  obtain ⟨h0, h1⟩ := mem_squares_bounds hs
  exact movesFrom_sound h0 h1 hturn hm

/-! ### Preservation of the invariant by makeMove -/

theorem getD_set_ne (l : List Bool) {i j : Nat} (v : Bool) (h : i ≠ j) :
    (l.set i v).getD j false = l.getD j false := by
  simp [List.getD, List.getElem?_set_ne h]

theorem getD_set_self_false (l : List Bool) (i : Nat) :
    (l.set i false).getD i false = false := by
  by_cases hi : i < l.length
  · simp [List.getD, List.getElem?_set_self, hi]
  · rw [List.set_eq_of_length_le (by omega)]
    rw [List.getD, List.get?_eq_none.mpr (by omega)]
    rfl

theorem getD_ite_set_ne (c : List Bool) (P : Prop) [Decidable P] (i j : Nat) (v : Bool)
    (h : i ≠ j) : (if P then c.set i v else c).getD j false = c.getD j false := by
  split_ifs
  · exact getD_set_ne c v h
  · rfl

theorem getD_ite_set_false {c : List Bool} {P : Prop} [Decidable P] {j : Nat}
    (h : (if P then c.set j false else c).getD j false = true) :
    ¬P ∧ c.getD j false = true := by
  split_ifs at h with hP
  · rw [getD_set_self_false] at h
    exact absurd h (by decide)
  · exact ⟨hP, h⟩

theorem makeMove_board_frame (s : Int) {g : Position} {m : Move}
    (hcolor : (if boardGet g.board m.fromSq > 0 then WHITE else BLACK) = g.turn)
    (hturn : g.turn = WHITE ∨ g.turn = BLACK)
    (hf : m.fromSq ≠ s) (ht : m.toSq ≠ s)
    (hepx : m.flag = FLAG_EP_CAPTURE →
      m.toSq + (if g.turn = WHITE then (8 : Int) else -8) ≠ s)
    (hckx : m.flag = FLAG_CASTLE_K →
      (g.turn = WHITE → (61 : Int) ≠ s ∧ (63 : Int) ≠ s) ∧
      (g.turn = BLACK → (5 : Int) ≠ s ∧ (7 : Int) ≠ s))
    (hcqx : m.flag = FLAG_CASTLE_Q →
      (g.turn = WHITE → (59 : Int) ≠ s ∧ (56 : Int) ≠ s) ∧
      (g.turn = BLACK → (3 : Int) ≠ s ∧ (0 : Int) ≠ s)) :
    boardGet (makeMove g m).board s = boardGet g.board s := by
  obtain ⟨bd, tn, ca, ep, hmc, fmn, hist, ph, ml⟩ := g
  obtain ⟨mf, mt, mfl⟩ := m
  dsimp only at hcolor hf ht hepx hckx hcqx hturn ⊢
  rcases hturn with hT | hT
  all_goals subst hT
  · -- white to move
    have hck : mfl = FLAG_CASTLE_K → (61 : Int) ≠ s ∧ (63 : Int) ≠ s :=
      fun h => (hckx h).1 rfl
    have hcq : mfl = FLAG_CASTLE_Q → (59 : Int) ≠ s ∧ (56 : Int) ≠ s :=
      fun h => (hcqx h).1 rfl
    simp only [makeMove, hcolor] at hepx ⊢
    simp only [WHITE, BLACK, reduceIte,
      (by decide : sq 5 (0 : Int) = 61), (by decide : sq 7 (0 : Int) = 63),
      (by decide : sq 3 (0 : Int) = 59), (by decide : sq 0 (0 : Int) = 56)] at hepx ⊢
    split_ifs
    all_goals try (exact absurd rfl (by assumption))
    all_goals try simp only [(by decide : sq 5 (0 : Int) = 61),
      (by decide : sq 7 (0 : Int) = 63), (by decide : sq 3 (0 : Int) = 59),
      (by decide : sq 0 (0 : Int) = 56)]
    all_goals
      repeat (first
        | rw [boardGet_boardSet_ne _ hf]
        | rw [boardGet_boardSet_ne _ ht]
        | rw [boardGet_boardSet_ne _ (hepx (by assumption))]
        | rw [boardGet_boardSet_ne _ ((hck (by assumption)).1)]
        | rw [boardGet_boardSet_ne _ ((hck (by assumption)).2)]
        | rw [boardGet_boardSet_ne _ ((hcq (by assumption)).1)]
        | rw [boardGet_boardSet_ne _ ((hcq (by assumption)).2)])
    all_goals rfl
  · -- black to move
    have hck : mfl = FLAG_CASTLE_K → (5 : Int) ≠ s ∧ (7 : Int) ≠ s :=
      fun h => (hckx h).2 rfl
    have hcq : mfl = FLAG_CASTLE_Q → (3 : Int) ≠ s ∧ (0 : Int) ≠ s :=
      fun h => (hcqx h).2 rfl
    simp only [makeMove, hcolor] at hepx ⊢
    simp only [WHITE, BLACK, reduceIte, (by decide : ¬ ((-1 : Int) = 1)),
      (by decide : sq 5 (7 : Int) = 5), (by decide : sq 7 (7 : Int) = 7),
      (by decide : sq 3 (7 : Int) = 3), (by decide : sq 0 (7 : Int) = 0)] at hepx ⊢
    split_ifs
    all_goals try (exact absurd rfl (by assumption))
    all_goals try simp only [(by decide : sq 5 (7 : Int) = 5),
      (by decide : sq 7 (7 : Int) = 7), (by decide : sq 3 (7 : Int) = 3),
      (by decide : sq 0 (7 : Int) = 0)]
    all_goals
      repeat (first
        | rw [boardGet_boardSet_ne _ hf]
        | rw [boardGet_boardSet_ne _ ht]
        | rw [boardGet_boardSet_ne _ (hepx (by assumption))]
        | rw [boardGet_boardSet_ne _ ((hck (by assumption)).1)]
        | rw [boardGet_boardSet_ne _ ((hck (by assumption)).2)]
        | rw [boardGet_boardSet_ne _ ((hcq (by assumption)).1)]
        | rw [boardGet_boardSet_ne _ ((hcq (by assumption)).2)])
    all_goals rfl

theorem Inv_makeMove {g : Position} {m : Move} (hInv : Inv g) (hOK : MoveOK g m) :
    Inv (makeMove g m) := by
  obtain ⟨hlen, hturn, hc0, hc1, hc2, hc3, hep⟩ := hInv
  obtain ⟨hf0, hf1, ht0, ht1, hft, hne0, hsign, hpromo, hepok, hdpok, hckok, hcqok⟩ := hOK
  have hcolor : (if boardGet g.board m.fromSq > 0 then WHITE else BLACK) = g.turn := by
    rcases hsign with ⟨hp, ht⟩ | ⟨hp, ht⟩
    · rw [if_pos hp, ht]
    · rw [if_neg (by omega), ht]
  have hcap : m.flag = FLAG_EP_CAPTURE →
      24 ≤ m.toSq + (if g.turn = WHITE then (8 : Int) else -8) ∧ m.toSq + (if g.turn = WHITE then (8 : Int) else -8) ≤ 39 := by
    intro hfl
    obtain ⟨hte, -, -, -⟩ := hepok hfl
    rcases hep with he | ⟨hTw, h1, h2, -⟩ | ⟨hTb, h1, h2, -⟩
    · exfalso
      rw [hte, he] at ht0
      exact absurd ht0 (by decide)
    · rw [if_pos hTw, hte]
      omega
    · rw [if_neg (show ¬ (g.turn = WHITE) by rw [hTb]; decide), hte]
      omega
  have he : (makeMove g m).epSquare =
      (if m.flag = FLAG_DOUBLE_PUSH then
        m.fromSq + (if g.turn = WHITE then (-8 : Int) else 8) else -1) := by
    simp only [makeMove, hcolor]
  simp only [Inv]
  refine ⟨?_, ?_, ?_, ?_, ?_, ?_, ?_⟩
  · simp only [makeMove]
    split_ifs <;> simp only [length_boardSet] <;> exact hlen
  · rcases hturn with h | h
    · right
      show -g.turn = BLACK
      rw [h]
      decide
    · left
      show -g.turn = WHITE
      rw [h]
      decide
  · intro hcast
    simp only [makeMove] at hcast
    rw [(by decide : sq 7 (0 : Int) = 63), (by decide : sq 0 (0 : Int) = 56),
        (by decide : sq 7 (7 : Int) = 7), (by decide : sq 0 (7 : Int) = 0)] at hcast
    rw [getD_ite_set_ne _ _ 3 0 _ (by decide)] at hcast
    rw [getD_ite_set_ne _ _ 2 0 _ (by decide)] at hcast
    rw [getD_ite_set_ne _ _ 1 0 _ (by decide)] at hcast
    obtain ⟨hno, hcast⟩ := getD_ite_set_false hcast

    push_neg at hno
    by_cases hK : |boardGet g.board m.fromSq| = K
    · rw [if_pos hK] at hcast
      simp only [hcolor] at hcast
      by_cases hW : g.turn = WHITE
      · rw [if_pos hW] at hcast
        rw [getD_set_ne _ _ (by decide : (1:Nat) ≠ 0), getD_set_self_false] at hcast
        exact absurd hcast (by decide)
      · rw [if_neg hW] at hcast
        rw [getD_set_ne _ _ (by decide : (3:Nat) ≠ 0),
            getD_set_ne _ _ (by decide : (2:Nat) ≠ 0)] at hcast
        have hepx : m.flag = FLAG_EP_CAPTURE → m.toSq + (if g.turn = WHITE then (8 : Int) else -8) ≠ 63 :=
          fun hfl => by have := hcap hfl; omega
        have hckx : m.flag = FLAG_CASTLE_K →
            (g.turn = WHITE → (61 : Int) ≠ 63 ∧ (63 : Int) ≠ 63) ∧
            (g.turn = BLACK → (5 : Int) ≠ 63 ∧ (7 : Int) ≠ 63) :=
          fun _ => ⟨fun hWt => absurd hWt hW, fun _ => ⟨by decide, by decide⟩⟩
        have hcqx : m.flag = FLAG_CASTLE_Q →
            (g.turn = WHITE → (59 : Int) ≠ 63 ∧ (56 : Int) ≠ 63) ∧
            (g.turn = BLACK → (3 : Int) ≠ 63 ∧ (0 : Int) ≠ 63) :=
          fun _ => ⟨fun hWt => absurd hWt hW, fun _ => ⟨by decide, by decide⟩⟩
        rw [makeMove_board_frame 63 hcolor hturn hno.1 hno.2 hepx hckx hcqx]
        exact hc0 hcast
    · rw [if_neg hK] at hcast
      have hnotCK : m.flag ≠ FLAG_CASTLE_K := fun hfl => hK (by
        rcases hturn with h | h <;> rw [(hckok hfl).1, h] <;> decide)
      have hnotCQ : m.flag ≠ FLAG_CASTLE_Q := fun hfl => hK (by
        rcases hturn with h | h <;> rw [(hcqok hfl).1, h] <;> decide)
      have hepx : m.flag = FLAG_EP_CAPTURE → m.toSq + (if g.turn = WHITE then (8 : Int) else -8) ≠ 63 :=
        fun hfl => by have := hcap hfl; omega
      rw [makeMove_board_frame 63 hcolor hturn hno.1 hno.2 hepx
        (fun hfl => absurd hfl hnotCK) (fun hfl => absurd hfl hnotCQ)]
      exact hc0 hcast
  · intro hcast
    simp only [makeMove] at hcast
    rw [(by decide : sq 7 (0 : Int) = 63), (by decide : sq 0 (0 : Int) = 56),
        (by decide : sq 7 (7 : Int) = 7), (by decide : sq 0 (7 : Int) = 0)] at hcast
    rw [getD_ite_set_ne _ _ 3 1 _ (by decide)] at hcast
    rw [getD_ite_set_ne _ _ 2 1 _ (by decide)] at hcast
    obtain ⟨hno, hcast⟩ := getD_ite_set_false hcast
    rw [getD_ite_set_ne _ _ 0 1 _ (by decide)] at hcast
    push_neg at hno
    by_cases hK : |boardGet g.board m.fromSq| = K
    · rw [if_pos hK] at hcast
      simp only [hcolor] at hcast
      by_cases hW : g.turn = WHITE
      · rw [if_pos hW] at hcast
        rw [getD_set_self_false] at hcast
        exact absurd hcast (by decide)
      · rw [if_neg hW] at hcast
        rw [getD_set_ne _ _ (by decide : (3:Nat) ≠ 1),
            getD_set_ne _ _ (by decide : (2:Nat) ≠ 1)] at hcast
        have hepx : m.flag = FLAG_EP_CAPTURE → m.toSq + (if g.turn = WHITE then (8 : Int) else -8) ≠ 56 :=
          fun hfl => by have := hcap hfl; omega
        have hckx : m.flag = FLAG_CASTLE_K →
            (g.turn = WHITE → (61 : Int) ≠ 56 ∧ (63 : Int) ≠ 56) ∧
            (g.turn = BLACK → (5 : Int) ≠ 56 ∧ (7 : Int) ≠ 56) :=
          fun _ => ⟨fun hWt => absurd hWt hW, fun _ => ⟨by decide, by decide⟩⟩
        have hcqx : m.flag = FLAG_CASTLE_Q →
            (g.turn = WHITE → (59 : Int) ≠ 56 ∧ (56 : Int) ≠ 56) ∧
            (g.turn = BLACK → (3 : Int) ≠ 56 ∧ (0 : Int) ≠ 56) :=
          fun _ => ⟨fun hWt => absurd hWt hW, fun _ => ⟨by decide, by decide⟩⟩
        rw [makeMove_board_frame 56 hcolor hturn hno.1 hno.2 hepx hckx hcqx]
        exact hc1 hcast
    · rw [if_neg hK] at hcast
      have hnotCK : m.flag ≠ FLAG_CASTLE_K := fun hfl => hK (by
        rcases hturn with h | h <;> rw [(hckok hfl).1, h] <;> decide)
      have hnotCQ : m.flag ≠ FLAG_CASTLE_Q := fun hfl => hK (by
        rcases hturn with h | h <;> rw [(hcqok hfl).1, h] <;> decide)
      have hepx : m.flag = FLAG_EP_CAPTURE → m.toSq + (if g.turn = WHITE then (8 : Int) else -8) ≠ 56 :=
        fun hfl => by have := hcap hfl; omega
      rw [makeMove_board_frame 56 hcolor hturn hno.1 hno.2 hepx
        (fun hfl => absurd hfl hnotCK) (fun hfl => absurd hfl hnotCQ)]
      exact hc1 hcast
  · intro hcast
    simp only [makeMove] at hcast
    rw [(by decide : sq 7 (0 : Int) = 63), (by decide : sq 0 (0 : Int) = 56),
        (by decide : sq 7 (7 : Int) = 7), (by decide : sq 0 (7 : Int) = 0)] at hcast
    rw [getD_ite_set_ne _ _ 3 2 _ (by decide)] at hcast
    obtain ⟨hno, hcast⟩ := getD_ite_set_false hcast
    rw [getD_ite_set_ne _ _ 1 2 _ (by decide)] at hcast
    rw [getD_ite_set_ne _ _ 0 2 _ (by decide)] at hcast
    push_neg at hno
    by_cases hK : |boardGet g.board m.fromSq| = K
    · rw [if_pos hK] at hcast
      simp only [hcolor] at hcast
      by_cases hW : g.turn = WHITE
      · rw [if_pos hW] at hcast
        rw [getD_set_ne _ _ (by decide : (1:Nat) ≠ 2),
            getD_set_ne _ _ (by decide : (0:Nat) ≠ 2)] at hcast
        have hnB : ¬ (g.turn = BLACK) := by rw [hW]; decide
        have hepx : m.flag = FLAG_EP_CAPTURE → m.toSq + (if g.turn = WHITE then (8 : Int) else -8) ≠ 7 :=
          fun hfl => by have := hcap hfl; omega
        have hckx : m.flag = FLAG_CASTLE_K →
            (g.turn = WHITE → (61 : Int) ≠ 7 ∧ (63 : Int) ≠ 7) ∧
            (g.turn = BLACK → (5 : Int) ≠ 7 ∧ (7 : Int) ≠ 7) :=
          fun _ => ⟨fun _ => ⟨by decide, by decide⟩, fun hBt => absurd hBt hnB⟩
        have hcqx : m.flag = FLAG_CASTLE_Q →
            (g.turn = WHITE → (59 : Int) ≠ 7 ∧ (56 : Int) ≠ 7) ∧
            (g.turn = BLACK → (3 : Int) ≠ 7 ∧ (0 : Int) ≠ 7) :=
          fun _ => ⟨fun _ => ⟨by decide, by decide⟩, fun hBt => absurd hBt hnB⟩
        rw [makeMove_board_frame 7 hcolor hturn hno.1 hno.2 hepx hckx hcqx]
        exact hc2 hcast
      · rw [if_neg hW] at hcast
        rw [getD_set_ne _ _ (by decide : (3:Nat) ≠ 2), getD_set_self_false] at hcast
        exact absurd hcast (by decide)
    · rw [if_neg hK] at hcast
      have hnotCK : m.flag ≠ FLAG_CASTLE_K := fun hfl => hK (by
        rcases hturn with h | h <;> rw [(hckok hfl).1, h] <;> decide)
      have hnotCQ : m.flag ≠ FLAG_CASTLE_Q := fun hfl => hK (by
        rcases hturn with h | h <;> rw [(hcqok hfl).1, h] <;> decide)
      have hepx : m.flag = FLAG_EP_CAPTURE → m.toSq + (if g.turn = WHITE then (8 : Int) else -8) ≠ 7 :=
        fun hfl => by have := hcap hfl; omega
      rw [makeMove_board_frame 7 hcolor hturn hno.1 hno.2 hepx
        (fun hfl => absurd hfl hnotCK) (fun hfl => absurd hfl hnotCQ)]
      exact hc2 hcast
  · intro hcast
    simp only [makeMove] at hcast
    rw [(by decide : sq 7 (0 : Int) = 63), (by decide : sq 0 (0 : Int) = 56),
        (by decide : sq 7 (7 : Int) = 7), (by decide : sq 0 (7 : Int) = 0)] at hcast

    obtain ⟨hno, hcast⟩ := getD_ite_set_false hcast
    rw [getD_ite_set_ne _ _ 2 3 _ (by decide)] at hcast
    rw [getD_ite_set_ne _ _ 1 3 _ (by decide)] at hcast
    rw [getD_ite_set_ne _ _ 0 3 _ (by decide)] at hcast
    push_neg at hno
    by_cases hK : |boardGet g.board m.fromSq| = K
    · rw [if_pos hK] at hcast
      simp only [hcolor] at hcast
      by_cases hW : g.turn = WHITE
      · rw [if_pos hW] at hcast
        rw [getD_set_ne _ _ (by decide : (1:Nat) ≠ 3),
            getD_set_ne _ _ (by decide : (0:Nat) ≠ 3)] at hcast
        have hnB : ¬ (g.turn = BLACK) := by rw [hW]; decide
        have hepx : m.flag = FLAG_EP_CAPTURE → m.toSq + (if g.turn = WHITE then (8 : Int) else -8) ≠ 0 :=
          fun hfl => by have := hcap hfl; omega
        have hckx : m.flag = FLAG_CASTLE_K →
            (g.turn = WHITE → (61 : Int) ≠ 0 ∧ (63 : Int) ≠ 0) ∧
            (g.turn = BLACK → (5 : Int) ≠ 0 ∧ (7 : Int) ≠ 0) :=
          fun _ => ⟨fun _ => ⟨by decide, by decide⟩, fun hBt => absurd hBt hnB⟩
        have hcqx : m.flag = FLAG_CASTLE_Q →
            (g.turn = WHITE → (59 : Int) ≠ 0 ∧ (56 : Int) ≠ 0) ∧
            (g.turn = BLACK → (3 : Int) ≠ 0 ∧ (0 : Int) ≠ 0) :=
          fun _ => ⟨fun _ => ⟨by decide, by decide⟩, fun hBt => absurd hBt hnB⟩
        rw [makeMove_board_frame 0 hcolor hturn hno.1 hno.2 hepx hckx hcqx]
        exact hc3 hcast
      · rw [if_neg hW] at hcast
        rw [getD_set_self_false] at hcast
        exact absurd hcast (by decide)
    · rw [if_neg hK] at hcast
      have hnotCK : m.flag ≠ FLAG_CASTLE_K := fun hfl => hK (by
        rcases hturn with h | h <;> rw [(hckok hfl).1, h] <;> decide)
      have hnotCQ : m.flag ≠ FLAG_CASTLE_Q := fun hfl => hK (by
        rcases hturn with h | h <;> rw [(hcqok hfl).1, h] <;> decide)
      have hepx : m.flag = FLAG_EP_CAPTURE → m.toSq + (if g.turn = WHITE then (8 : Int) else -8) ≠ 0 :=
        fun hfl => by have := hcap hfl; omega
      rw [makeMove_board_frame 0 hcolor hturn hno.1 hno.2 hepx
        (fun hfl => absurd hfl hnotCK) (fun hfl => absurd hfl hnotCQ)]
      exact hc3 hcast
  · by_cases hdp : m.flag = FLAG_DOUBLE_PUSH
    · obtain ⟨hP, hdata⟩ := hdpok hdp
      right
      rcases hdata with ⟨hTw, h48, h55, hto, hmid, htoE⟩ | ⟨hTb, h8, h15, hto, hmid, htoE⟩
      · right
        have he2 : (makeMove g m).epSquare = m.fromSq + -8 := by
          rw [he, if_pos hdp, if_pos hTw]
        refine ⟨?_, ?_, ?_, ?_⟩
        · show -g.turn = BLACK
          rw [hTw]
          decide
        · rw [he2]
          omega
        · rw [he2]
          omega
        · rw [he2]
          have hepx : m.flag = FLAG_EP_CAPTURE → m.toSq + (if g.turn = WHITE then (8 : Int) else -8) ≠ m.fromSq + -8 :=
            fun hfl => by rw [hdp] at hfl; exact absurd hfl (by decide)
          have hckx : m.flag = FLAG_CASTLE_K →
              (g.turn = WHITE → (61 : Int) ≠ m.fromSq + -8 ∧ (63 : Int) ≠ m.fromSq + -8) ∧
              (g.turn = BLACK → (5 : Int) ≠ m.fromSq + -8 ∧ (7 : Int) ≠ m.fromSq + -8) :=
            fun hfl => by rw [hdp] at hfl; exact absurd hfl (by decide)
          have hcqx : m.flag = FLAG_CASTLE_Q →
              (g.turn = WHITE → (59 : Int) ≠ m.fromSq + -8 ∧ (56 : Int) ≠ m.fromSq + -8) ∧
              (g.turn = BLACK → (3 : Int) ≠ m.fromSq + -8 ∧ (0 : Int) ≠ m.fromSq + -8) :=
            fun hfl => by rw [hdp] at hfl; exact absurd hfl (by decide)
          rw [makeMove_board_frame (m.fromSq + -8) hcolor hturn (by omega)
            (by omega) hepx hckx hcqx]
          have harith : m.fromSq + (-8 : Int) = m.fromSq - 8 := by ring
          rw [harith]
          exact hmid
      · left
        have he2 : (makeMove g m).epSquare = m.fromSq + 8 := by
          rw [he, if_pos hdp, if_neg (show ¬ (g.turn = WHITE) by rw [hTb]; decide)]
        refine ⟨?_, ?_, ?_, ?_⟩
        · show -g.turn = WHITE
          rw [hTb]
          decide
        · rw [he2]
          omega
        · rw [he2]
          omega
        · rw [he2]
          have hepx : m.flag = FLAG_EP_CAPTURE → m.toSq + (if g.turn = WHITE then (8 : Int) else -8) ≠ m.fromSq + 8 :=
            fun hfl => by rw [hdp] at hfl; exact absurd hfl (by decide)
          have hckx : m.flag = FLAG_CASTLE_K →
              (g.turn = WHITE → (61 : Int) ≠ m.fromSq + 8 ∧ (63 : Int) ≠ m.fromSq + 8) ∧
              (g.turn = BLACK → (5 : Int) ≠ m.fromSq + 8 ∧ (7 : Int) ≠ m.fromSq + 8) :=
            fun hfl => by rw [hdp] at hfl; exact absurd hfl (by decide)
          have hcqx : m.flag = FLAG_CASTLE_Q →
              (g.turn = WHITE → (59 : Int) ≠ m.fromSq + 8 ∧ (56 : Int) ≠ m.fromSq + 8) ∧
              (g.turn = BLACK → (3 : Int) ≠ m.fromSq + 8 ∧ (0 : Int) ≠ m.fromSq + 8) :=
            fun hfl => by rw [hdp] at hfl; exact absurd hfl (by decide)
          rw [makeMove_board_frame (m.fromSq + 8) hcolor hturn (by omega)
            (by omega) hepx hckx hcqx]
          exact hmid
    · left
      rw [he, if_neg hdp]

/-! ### The legality filter and state frames -/

theorem makeMove_turn (g : Position) (m : Move) : (makeMove g m).turn = -g.turn := rfl

theorem genLegalS_fold {g : Position} (hInv : Inv g) :
    ∀ (ms : List Move) (acc : List Move), (∀ m ∈ ms, MoveOK g m) →
      ms.foldl (fun acc m =>
        let st1 := makeMove acc.2 m
        let keep := !(isInCheck st1 (-st1.turn))
        (if keep then acc.1 ++ [m] else acc.1, undoMove st1)) (acc, g) =
      (acc ++ ms.filter (fun m => !(isInCheck (makeMove g m) g.turn)), g) := by
  intro ms
  induction ms with
  | nil => intro acc _; simp
  | cons m rest ih =>
    intro acc hok
    have hrt : undoMove (makeMove g m) = g :=
      roundtrip hInv (hok m (List.mem_cons_self m rest))
    have hok' : ∀ x ∈ rest, MoveOK g x := fun x hx => hok x (List.mem_cons_of_mem m hx)
    rw [List.foldl_cons]
    dsimp only
    rw [makeMove_turn, neg_neg, hrt]
    rw [ih _ hok']
    rw [List.filter_cons]
    by_cases hp : (!(isInCheck (makeMove g m) g.turn)) = true
    · rw [if_pos hp, if_pos hp]
      simp
    · rw [if_neg hp, if_neg hp]

theorem genLegalS_eq {g : Position} (hInv : Inv g) :
    genLegalS g = ((generatePseudoLegalMoves g).filter
      (fun m => !(isInCheck (makeMove g m) g.turn)), g) := by
  have h := genLegalS_fold hInv (generatePseudoLegalMoves g) []
    (fun m hm => pseudo_sound hInv.2.1 hm)
  simpa [genLegalS] using h

theorem mem_generateLegalMoves {g : Position} {m : Move} (hInv : Inv g) :
    m ∈ generateLegalMoves g ↔
      m ∈ generatePseudoLegalMoves g ∧ isInCheck (makeMove g m) g.turn = false := by
  rw [generateLegalMoves, genLegalS_eq hInv]
  simp [List.mem_filter]

theorem legal_MoveOK {g : Position} {m : Move} (hInv : Inv g)
    (hm : m ∈ generateLegalMoves g) : MoveOK g m :=
  pseudo_sound hInv.2.1 ((mem_generateLegalMoves hInv).mp hm).1

theorem moveToAlgebraic_frame {g : Position} {move : Move} (hInv : Inv g)
    (hOK : MoveOK g move) : (moveToAlgebraicS g move).2 = g := by
  have hInv' : Inv (makeMove g move) := Inv_makeMove hInv hOK
  have hrt : undoMove (makeMove g move) = g := roundtrip hInv hOK
  by_cases hc1 : move.flag = FLAG_CASTLE_K
  · simp [moveToAlgebraicS, hc1]
  by_cases hc2 : move.flag = FLAG_CASTLE_Q
  · simp [moveToAlgebraicS, hc1, hc2, (by decide : ¬ ((FLAG_CASTLE_Q : Int) = FLAG_CASTLE_K))]
  simp only [moveToAlgebraicS, if_neg hc1, if_neg hc2, genLegalS_eq hInv,
    genLegalS_eq hInv', apply_ite Prod.snd, ite_self, hrt]

theorem isCheckmateS_eq {g : Position} (hInv : Inv g) :
    isCheckmateS g =
      (decide ((generateLegalMoves g).length = 0) && isInCheck g g.turn, g) := by
  simp only [isCheckmateS, generateLegalMoves, genLegalS_eq hInv]

theorem isStalemateS_eq {g : Position} (hInv : Inv g) :
    isStalemateS g =
      (decide ((generateLegalMoves g).length = 0) && !(isInCheck g g.turn), g) := by
  simp only [isStalemateS, generateLegalMoves, genLegalS_eq hInv]

theorem isDrawS_eq {g : Position} (hInv : Inv g) :
    isDrawS g =
      ((decide ((generateLegalMoves g).length = 0) && !(isInCheck g g.turn))
        || isFiftyMoveRule g || isThreefoldRepetition g || isInsufficientMaterial g,
       g) := by
  simp only [isDrawS, isStalemateS_eq hInv]

theorem isGameOverS_eq {g : Position} (hInv : Inv g) :
    isGameOverS g =
      (if (decide ((generateLegalMoves g).length = 0) && isInCheck g g.turn) = true
       then (true, g)
       else ((decide ((generateLegalMoves g).length = 0) && !(isInCheck g g.turn))
        || isFiftyMoveRule g || isThreefoldRepetition g || isInsufficientMaterial g,
        g)) := by
  simp only [isGameOverS, isCheckmateS_eq hInv]
  split_ifs with h
  · rfl
  · simp only [isDrawS_eq hInv]

theorem isGameOverS_snd {g : Position} (hInv : Inv g) : (isGameOverS g).2 = g := by
  rw [isGameOverS_eq hInv]
  split_ifs <;> rfl

theorem getGameResultS_snd {g : Position} (hInv : Inv g) :
    (getGameResultS g).2 = g := by
  simp only [getGameResultS, isCheckmateS_eq hInv, isStalemateS_eq hInv]
  split_ifs <;> rfl

theorem executeMove_state {g : Position} {m : Move} (hInv : Inv g) (hOK : MoveOK g m) :
    (executeMove g m).2 =
      { makeMove g m with
        positionHistory := (makeMove g m).positionHistory ++ [positionKey (makeMove g m)],
        moveList := (makeMove g m).moveList ++ [(moveToAlgebraicS g m).1] } := by
  simp only [executeMove, moveToAlgebraic_frame hInv hOK]

/-- Positions arising in play: the reset position, then any chain of legal
moves applied with `executeMove`. -/
inductive Reachable : Position → Prop
  | start : Reachable reset
  | step {g : Position} {m : Move} : Reachable g → m ∈ generateLegalMoves g →
      Reachable (executeMove g m).2

theorem Inv_reset : Inv reset := by
  simp only [Inv]
  decide

theorem Reachable_Inv {g : Position} (h : Reachable g) : Inv g := by
  induction h with
  | start => exact Inv_reset
  | step hr hm ih =>
    have hOK := legal_MoveOK ih hm
    rw [executeMove_state ih hOK]
    exact Inv_makeMove ih hOK

/-! ### En passant -/

theorem makeMove_epSquare {g : Position} {m : Move}
    (hcolor : (if boardGet g.board m.fromSq > 0 then WHITE else BLACK) = g.turn) :
    (makeMove g m).epSquare =
      (if m.flag = FLAG_DOUBLE_PUSH then
        m.fromSq + (if g.turn = WHITE then (-8 : Int) else 8) else -1) := by
  simp only [makeMove, hcolor]

theorem makeMove_ep_board {g : Position} {m : Move} (hInv : Inv g) (hOK : MoveOK g m)
    (hfl : m.flag = FLAG_EP_CAPTURE) :
    boardGet (makeMove g m).board (m.toSq + (if g.turn = WHITE then (8 : Int) else -8))
        = EMPTY ∧
    boardGet (makeMove g m).board m.toSq = boardGet g.board m.fromSq := by
  obtain ⟨hlen, hturn, -, -, -, -, hep⟩ := hInv
  obtain ⟨hf0, hf1, ht0, ht1, hft, hne0, hsign, hpromo, hepok, hdpok, hckok, hcqok⟩ := hOK
  obtain ⟨bd, tn, ca, ep, hmc, fmn, hist, ph, ml⟩ := g
  obtain ⟨mf, mt, mfl⟩ := m
  dsimp only at hfl hf0 hf1 ht0 ht1 hft hne0 hsign hepok hep hturn hlen ⊢
  subst hfl
  obtain ⟨hte, -, hcne1, hcne2⟩ := hepok rfl
  rcases hturn with hT | hT <;> subst hT
  · have hp : boardGet bd mf > 0 := by
      rcases hsign with ⟨hp, -⟩ | ⟨-, hB⟩
      · exact hp
      · exact absurd hB (by decide)
    have hcolor : (if boardGet bd mf > 0 then WHITE else BLACK) = WHITE := if_pos hp
    have hb : 16 ≤ mt ∧ mt ≤ 23 := by
      rcases hep with he | ⟨-, h1, h2, -⟩ | ⟨hB, -, -, -⟩
      · rw [hte, he] at ht0
        exact absurd ht0 (by decide)
      · omega
      · exact absurd hB (by decide)
    rw [(by decide : (if (WHITE : Int) = WHITE then (8 : Int) else -8) = 8)]
    simp only [makeMove, hcolor,
      (by decide : ¬ (FLAG_EP_CAPTURE : Int) = FLAG_CASTLE_K),
      (by decide : ¬ (FLAG_EP_CAPTURE : Int) = FLAG_CASTLE_Q),
      (by decide : isPromotion FLAG_EP_CAPTURE = false),
      Bool.false_eq_true, ite_false, ite_true, reduceIte]
    constructor
    · rw [boardGet_boardSet_ne _ hcne1,
        boardGet_boardSet_ne _ (by omega : mt ≠ mt + 8),
        boardGet_boardSet_self _ (by omega) (by omega) hlen]
    · rw [boardGet_boardSet_ne _ hft,
        boardGet_boardSet_self _ (by omega) (by omega)
          (by simp only [length_boardSet]; exact hlen)]
  · have hp : ¬ (boardGet bd mf > 0) := by
      rcases hsign with ⟨-, hB⟩ | ⟨hp, -⟩
      · exact absurd hB (by decide)
      · omega
    have hcolor : (if boardGet bd mf > 0 then WHITE else BLACK) = BLACK := if_neg hp
    have hb : 40 ≤ mt ∧ mt ≤ 47 := by
      rcases hep with he | ⟨hB, -, -, -⟩ | ⟨-, h1, h2, -⟩
      · rw [hte, he] at ht0
        exact absurd ht0 (by decide)
      · exact absurd hB (by decide)
      · omega
    rw [(by decide : (if (BLACK : Int) = WHITE then (8 : Int) else -8) = -8)]
    simp only [makeMove, hcolor,
      (by decide : ¬ (FLAG_EP_CAPTURE : Int) = FLAG_CASTLE_K),
      (by decide : ¬ (FLAG_EP_CAPTURE : Int) = FLAG_CASTLE_Q),
      (by decide : isPromotion FLAG_EP_CAPTURE = false),
      (by decide : ¬ ((BLACK : Int) = WHITE)),
      Bool.false_eq_true, ite_false, ite_true, reduceIte]
    constructor
    · rw [boardGet_boardSet_ne _ (by omega : mf ≠ mt + -8),
        boardGet_boardSet_ne _ (by omega : mt ≠ mt + -8),
        boardGet_boardSet_self _ (by omega) (by omega) hlen]
    · rw [boardGet_boardSet_ne _ hft,
        boardGet_boardSet_self _ (by omega) (by omega)
          (by simp only [length_boardSet]; exact hlen)]

theorem epCapture_mem_pseudo {g : Position} {a : Int} (hInv : Inv g)
    (ha0 : 0 ≤ a) (ha1 : a < 64)
    (hpawn : boardGet g.board a = P * g.turn)
    (hrank : rankOf a = rankOf (g.epSquare + (if g.turn = WHITE then (8 : Int) else -8)))
    (hfile : |fileOf a - fileOf (g.epSquare + (if g.turn = WHITE then (8 : Int) else -8))| = 1)
    (hne : g.epSquare ≠ -1) :
    (⟨a, g.epSquare, FLAG_EP_CAPTURE⟩ : Move) ∈ generatePseudoLegalMoves g := by
  obtain ⟨hlen, hturn, -, -, -, -, hepInv⟩ := hInv
  rcases hepInv with he | ⟨hT, h1, h2, -⟩ | ⟨hT, h1, h2, -⟩
  · exact absurd he hne
  · -- white to move: the pushed pawn stands on epSquare + 8
    rw [if_pos hT] at hrank hfile
    have hadj : g.epSquare + 8 - a = 1 ∨ g.epSquare + 8 - a = -1 := by
      rcases (abs_eq (by norm_num : (0:Int) ≤ 1)).mp hfile with h | h <;>
        (simp only [rankOf, fileOf] at hrank h; omega)
    simp only [generatePseudoLegalMoves, List.mem_flatMap]
    refine ⟨a, mem_squares_of_bounds ha0 ha1, ?_⟩
    have hp1 : boardGet g.board a = 1 := by
      rw [hpawn, hT]
      decide
    simp only [movesFrom, hp1]
    rw [if_neg (by
      push_neg
      refine ⟨by decide, ?_⟩
      rw [hT]
      decide)]
    rw [if_pos (by decide : |(1 : Int)| = P), hT]
    simp only [genPawnMoves, WHITE, BLACK, reduceIte, List.mem_append, List.mem_flatMap,
      List.mem_cons, List.not_mem_nil, or_false]
    right
    refine ⟨g.epSquare + 8 - a, ?_, ?_⟩
    · rcases hadj with h | h <;> rw [h] <;> decide
    · rw [if_neg (by
        simp only [fileOf] at hfile ⊢
        rcases (abs_eq (by norm_num : (0:Int) ≤ 1)).mp hfile with h | h <;>
          (simp only [rankOf] at hrank; omega))]
      rw [if_neg (by omega)]
      refine List.mem_append_right _ ?_
      rw [if_pos (by ring_nf : a + -8 + (g.epSquare + 8 - a) = g.epSquare)]
      simp only [List.mem_singleton, Move.mk.injEq]
      exact ⟨trivial, by ring, trivial⟩
  · -- black to move: the pushed pawn stands on epSquare - 8
    rw [if_neg (show ¬ (g.turn = WHITE) by rw [hT]; decide)] at hrank hfile
    have hadj : g.epSquare - 8 - a = 1 ∨ g.epSquare - 8 - a = -1 := by
      rcases (abs_eq (by norm_num : (0:Int) ≤ 1)).mp hfile with h | h <;>
        (simp only [rankOf, fileOf] at hrank h; omega)
    simp only [generatePseudoLegalMoves, List.mem_flatMap]
    refine ⟨a, mem_squares_of_bounds ha0 ha1, ?_⟩
    have hp1 : boardGet g.board a = -1 := by
      rw [hpawn, hT]
      decide
    simp only [movesFrom, hp1]
    rw [if_neg (by
      push_neg
      refine ⟨by decide, ?_⟩
      rw [hT]
      decide)]
    rw [if_pos (by decide : |(-1 : Int)| = P), hT]
    simp only [genPawnMoves, WHITE, BLACK, reduceIte, (by decide : ¬ ((-1 : Int) = 1)),
      List.mem_append, List.mem_flatMap, List.mem_cons, List.not_mem_nil, or_false]
    right
    refine ⟨g.epSquare - 8 - a, ?_, ?_⟩
    · rcases hadj with h | h <;> rw [h] <;> decide
    · rw [if_neg (by
        simp only [fileOf] at hfile ⊢
        rcases (abs_eq (by norm_num : (0:Int) ≤ 1)).mp hfile with h | h <;>
          (simp only [rankOf] at hrank; omega))]
      rw [if_neg (by omega)]
      refine List.mem_append_right _ ?_
      rw [if_pos (by ring_nf : a + 8 + (g.epSquare - 8 - a) = g.epSquare)]
      simp only [List.mem_singleton, Move.mk.injEq]
      exact ⟨trivial, by ring, trivial⟩

/-! ### Claim theorems -/

/-- C1 -/
theorem makeMove_undoMove_roundtrip {g : Position} {m : Move} (hr : Reachable g)
    (hm : m ∈ generateLegalMoves g) : undoMove (makeMove g m) = g :=
  roundtrip (Reachable_Inv hr) (legal_MoveOK (Reachable_Inv hr) hm)

/-- C3 -/
theorem generateLegalMoves_spec {g : Position} (hInv : Inv g) (m : Move) :
    m ∈ generateLegalMoves g ↔
      m ∈ generatePseudoLegalMoves g ∧ isInCheck (makeMove g m) g.turn = false :=
  mem_generateLegalMoves hInv

/-- C8 -/
theorem query_frame {g : Position} {m : Move} (hr : Reachable g)
    (hm : m ∈ generateLegalMoves g) :
    (genLegalS g).2 = g ∧ (isGameOverS g).2 = g ∧ (getGameResultS g).2 = g ∧
      (moveToAlgebraicS g m).2 = g := by
  have hInv := Reachable_Inv hr
  have hOK := legal_MoveOK hInv hm
  exact ⟨by rw [genLegalS_eq hInv], isGameOverS_snd hInv, getGameResultS_snd hInv,
    moveToAlgebraic_frame hInv hOK⟩

/-- C4 -/
theorem zero_legal_classification {g : Position} (hInv : Inv g)
    (hzero : (generateLegalMoves g).length = 0) :
    (isInCheck g g.turn = true →
      (isGameOverS g).1 = true ∧
      (getGameResultS g).1 =
        some (if g.turn = WHITE then "Black wins by checkmate"
              else "White wins by checkmate")) ∧
    (isInCheck g g.turn = false →
      (isCheckmateS g).1 = false ∧ (isStalemateS g).1 = true ∧
      (getGameResultS g).1 = some "Draw by stalemate") := by
  constructor
  · intro hchk
    constructor
    · rw [isGameOverS_eq hInv]
      simp [hzero, hchk]
    · simp only [getGameResultS, isCheckmateS_eq hInv, hzero, hchk]
      simp
  · intro hchk
    refine ⟨?_, ?_, ?_⟩
    · rw [isCheckmateS_eq hInv]
      simp [hchk]
    · rw [isStalemateS_eq hInv]
      simp [hzero, hchk]
    · simp only [getGameResultS, isCheckmateS_eq hInv, isStalemateS_eq hInv,
        hzero, hchk]
      simp

/-- C5 amended -/
theorem enPassant_spec {g : Position} {d : Move} (hInv : Inv g)
    (hd : d ∈ generateLegalMoves g) (hdp : d.flag = FLAG_DOUBLE_PUSH)
    {a : Int} (ha0 : 0 ≤ a) (ha1 : a < 64)
    (hpawn : boardGet (makeMove g d).board a = P * (makeMove g d).turn)
    (hrank : rankOf a = rankOf d.toSq)
    (hfile : |fileOf a - fileOf d.toSq| = 1) :
    (⟨a, (makeMove g d).epSquare, FLAG_EP_CAPTURE⟩ : Move) ∈
        generatePseudoLegalMoves (makeMove g d) ∧
    ((⟨a, (makeMove g d).epSquare, FLAG_EP_CAPTURE⟩ : Move) ∈
        generateLegalMoves (makeMove g d) ↔
      isInCheck (makeMove (makeMove g d)
          ⟨a, (makeMove g d).epSquare, FLAG_EP_CAPTURE⟩) (makeMove g d).turn = false) ∧
    boardGet (makeMove (makeMove g d)
        ⟨a, (makeMove g d).epSquare, FLAG_EP_CAPTURE⟩).board
        ((makeMove g d).epSquare +
          (if (makeMove g d).turn = WHITE then (8 : Int) else -8)) = EMPTY ∧
    boardGet (makeMove (makeMove g d)
        ⟨a, (makeMove g d).epSquare, FLAG_EP_CAPTURE⟩).board
        (makeMove g d).epSquare = P * (makeMove g d).turn := by
  have hOK := legal_MoveOK hInv hd
  have hInv1 : Inv (makeMove g d) := Inv_makeMove hInv hOK
  obtain ⟨hf0d, hf1d, ht0d, ht1d, -, -, hsignd, -, -, hdpokd, -, -⟩ := hOK
  have hcolor : (if boardGet g.board d.fromSq > 0 then WHITE else BLACK) = g.turn := by
    rcases hsignd with ⟨hp, ht⟩ | ⟨hp, ht⟩
    · rw [if_pos hp, ht]
    · rw [if_neg (by omega), ht]
  have hepval : (makeMove g d).epSquare =
      d.fromSq + (if g.turn = WHITE then (-8 : Int) else 8) := by
    rw [makeMove_epSquare hcolor, if_pos hdp]
  obtain ⟨-, hdata⟩ := hdpokd hdp
  have hkey : (makeMove g d).epSquare +
      (if (makeMove g d).turn = WHITE then (8 : Int) else -8) = d.toSq := by
    rcases hdata with ⟨hT, h48, h55, hto, -, -⟩ | ⟨hT, h8, h15, hto, -, -⟩
    · rw [hepval, if_pos hT, makeMove_turn,
        if_neg (show ¬ (-g.turn = WHITE) by rw [hT]; decide)]
      omega
    · rw [hepval, if_neg (show ¬ (g.turn = WHITE) by rw [hT]; decide), makeMove_turn,
        if_pos (show -g.turn = WHITE by rw [hT]; decide)]
      omega
  have hne : (makeMove g d).epSquare ≠ -1 := by
    rcases hdata with ⟨hT, h48, h55, hto, -, -⟩ | ⟨hT, h8, h15, hto, -, -⟩
    · rw [hepval, if_pos hT]
      omega
    · rw [hepval, if_neg (show ¬ (g.turn = WHITE) by rw [hT]; decide)]
      omega
  have hrank' : rankOf a = rankOf ((makeMove g d).epSquare +
      (if (makeMove g d).turn = WHITE then (8 : Int) else -8)) := by
    rw [hkey]
    exact hrank
  have hfile' : |fileOf a - fileOf ((makeMove g d).epSquare +
      (if (makeMove g d).turn = WHITE then (8 : Int) else -8))| = 1 := by
    rw [hkey]
    exact hfile
  have hmem : (⟨a, (makeMove g d).epSquare, FLAG_EP_CAPTURE⟩ : Move) ∈
      generatePseudoLegalMoves (makeMove g d) :=
    epCapture_mem_pseudo hInv1 ha0 ha1 hpawn hrank' hfile' hne
  have hOK1 := pseudo_sound hInv1.2.1 hmem
  have hboard := makeMove_ep_board hInv1 hOK1 rfl
  exact ⟨hmem,
    ⟨fun h => ((mem_generateLegalMoves hInv1).mp h).2,
     fun h => (mem_generateLegalMoves hInv1).mpr ⟨hmem, h⟩⟩,
    hboard.1, hboard.2.trans hpawn⟩

set_option maxRecDepth 40000
set_option maxHeartbeats 4000000

/-- The fool's mate position (1. f3 e5 2. g4 Qh4#), White to move and mated. -/
def matePos : Position :=
  { board := boardSet (boardSet (boardSet (boardSet (boardSet (boardSet (boardSet
      (boardSet resetBoard 53 EMPTY) 45 P) 54 EMPTY) 38 P) 12 EMPTY) 28 (-P)) 3 EMPTY)
      39 (-Q),
    turn := WHITE, castling := [true, true, true, true], epSquare := -1,
    halfMoveClock := 0, fullMoveNumber := 3, history := [], positionHistory := [],
    moveList := [] }

/-- Kings on e1/e8, a White pawn on e5 and a Black pawn on d7; Black to move. -/
def epWitPos : Position :=
  { board := boardSet (boardSet (boardSet (boardSet
      (List.replicate 64 EMPTY) 60 K) 28 P) 4 (-K)) 11 (-P),
    turn := BLACK, castling := [false, false, false, false], epSquare := -1,
    halfMoveClock := 0, fullMoveNumber := 1, history := [], positionHistory := [],
    moveList := [] }

/-- Black Ka8 and Ra5, Black pawn e7; White Kh5 and pawn f5; Black to move.
After e7-e5 the f5 pawn is pinned against its king along the fifth rank. -/
def epPinPos : Position :=
  { board := boardSet (boardSet (boardSet (boardSet (boardSet
      (List.replicate 64 EMPTY) 0 (-K)) 24 (-R)) 12 (-P)) 31 K) 29 P,
    turn := BLACK, castling := [false, false, false, false], epSquare := -1,
    halfMoveClock := 0, fullMoveNumber := 1, history := [], positionHistory := [],
    moveList := [] }

def epPinPushed : Position := makeMove epPinPos ⟨12, 28, FLAG_DOUBLE_PUSH⟩

/-- C5 counterexample -/
theorem enPassant_pin_counterexample :
    (⟨12, 28, FLAG_DOUBLE_PUSH⟩ : Move) ∈ generateLegalMoves epPinPos ∧
    boardGet epPinPushed.board 29 = P * epPinPushed.turn ∧
    rankOf 29 = rankOf 28 ∧ |fileOf 29 - fileOf 28| = 1 ∧
    epPinPushed.epSquare = 20 ∧
    (⟨29, 20, FLAG_EP_CAPTURE⟩ : Move) ∈ generatePseudoLegalMoves epPinPushed ∧
    ¬ ((⟨29, 20, FLAG_EP_CAPTURE⟩ : Move) ∈ generateLegalMoves epPinPushed) := by
  decide

/-- C1 witness -/
theorem makeMove_undoMove_roundtrip_witness :
    Reachable reset ∧ (⟨52, 36, FLAG_DOUBLE_PUSH⟩ : Move) ∈ generateLegalMoves reset ∧
      undoMove (makeMove reset ⟨52, 36, FLAG_DOUBLE_PUSH⟩) = reset := by
  have h2 : (⟨52, 36, FLAG_DOUBLE_PUSH⟩ : Move) ∈ generateLegalMoves reset := by decide
  exact ⟨Reachable.start, h2, makeMove_undoMove_roundtrip Reachable.start h2⟩

/-- C3 witness -/
theorem generateLegalMoves_spec_witness :
    Inv reset ∧ ((⟨57, 42, FLAG_NORMAL⟩ : Move) ∈ generateLegalMoves reset ↔
      (⟨57, 42, FLAG_NORMAL⟩ : Move) ∈ generatePseudoLegalMoves reset ∧
      isInCheck (makeMove reset ⟨57, 42, FLAG_NORMAL⟩) reset.turn = false) :=
  ⟨Inv_reset, generateLegalMoves_spec Inv_reset ⟨57, 42, FLAG_NORMAL⟩⟩

/-- C8 witness -/
theorem query_frame_witness :
    Reachable reset ∧ (⟨62, 45, FLAG_NORMAL⟩ : Move) ∈ generateLegalMoves reset ∧
    ((genLegalS reset).2 = reset ∧ (isGameOverS reset).2 = reset ∧
      (getGameResultS reset).2 = reset ∧
      (moveToAlgebraicS reset ⟨62, 45, FLAG_NORMAL⟩).2 = reset) := by
  have h2 : (⟨62, 45, FLAG_NORMAL⟩ : Move) ∈ generateLegalMoves reset := by decide
  exact ⟨Reachable.start, h2, query_frame Reachable.start h2⟩

/-- C4 witness -/
theorem zero_legal_classification_witness :
    Inv matePos ∧ (generateLegalMoves matePos).length = 0 ∧
    ((isInCheck matePos matePos.turn = true →
      (isGameOverS matePos).1 = true ∧
      (getGameResultS matePos).1 =
        some (if matePos.turn = WHITE then "Black wins by checkmate"
              else "White wins by checkmate")) ∧
     (isInCheck matePos matePos.turn = false →
      (isCheckmateS matePos).1 = false ∧ (isStalemateS matePos).1 = true ∧
      (getGameResultS matePos).1 = some "Draw by stalemate")) := by
  have h1 : Inv matePos := by
    simp only [Inv]
    decide
  have h2 : (generateLegalMoves matePos).length = 0 := by decide
  exact ⟨h1, h2, zero_legal_classification h1 h2⟩

/-- C5 witness -/
theorem enPassant_spec_witness :
    Inv epWitPos ∧
    (⟨11, 27, FLAG_DOUBLE_PUSH⟩ : Move) ∈ generateLegalMoves epWitPos ∧
    ((⟨(28 : Int), (makeMove epWitPos (⟨11, 27, FLAG_DOUBLE_PUSH⟩ : Move)).epSquare, FLAG_EP_CAPTURE⟩ : Move) ∈
        generatePseudoLegalMoves (makeMove epWitPos (⟨11, 27, FLAG_DOUBLE_PUSH⟩ : Move)) ∧
    ((⟨(28 : Int), (makeMove epWitPos (⟨11, 27, FLAG_DOUBLE_PUSH⟩ : Move)).epSquare, FLAG_EP_CAPTURE⟩ : Move) ∈
        generateLegalMoves (makeMove epWitPos (⟨11, 27, FLAG_DOUBLE_PUSH⟩ : Move)) ↔
      isInCheck (makeMove (makeMove epWitPos (⟨11, 27, FLAG_DOUBLE_PUSH⟩ : Move))
          ⟨(28 : Int), (makeMove epWitPos (⟨11, 27, FLAG_DOUBLE_PUSH⟩ : Move)).epSquare, FLAG_EP_CAPTURE⟩) (makeMove epWitPos (⟨11, 27, FLAG_DOUBLE_PUSH⟩ : Move)).turn = false) ∧
    boardGet (makeMove (makeMove epWitPos (⟨11, 27, FLAG_DOUBLE_PUSH⟩ : Move))
        ⟨(28 : Int), (makeMove epWitPos (⟨11, 27, FLAG_DOUBLE_PUSH⟩ : Move)).epSquare, FLAG_EP_CAPTURE⟩).board
        ((makeMove epWitPos (⟨11, 27, FLAG_DOUBLE_PUSH⟩ : Move)).epSquare +
          (if (makeMove epWitPos (⟨11, 27, FLAG_DOUBLE_PUSH⟩ : Move)).turn = WHITE then (8 : Int) else -8)) = EMPTY ∧
    boardGet (makeMove (makeMove epWitPos (⟨11, 27, FLAG_DOUBLE_PUSH⟩ : Move))
        ⟨(28 : Int), (makeMove epWitPos (⟨11, 27, FLAG_DOUBLE_PUSH⟩ : Move)).epSquare, FLAG_EP_CAPTURE⟩).board
        (makeMove epWitPos (⟨11, 27, FLAG_DOUBLE_PUSH⟩ : Move)).epSquare = P * (makeMove epWitPos (⟨11, 27, FLAG_DOUBLE_PUSH⟩ : Move)).turn) := by
  have h1 : Inv epWitPos := by
    simp only [Inv]
    decide
  have h2 : (⟨11, 27, FLAG_DOUBLE_PUSH⟩ : Move) ∈ generateLegalMoves epWitPos := by
    decide
  exact ⟨h1, h2, enPassant_spec h1 h2 rfl (by decide) (by decide) (by decide)
    (by decide) (by decide)⟩

/-- Auxiliary: the perft oracle at depth 1 from the reset position. -/
theorem perft_reset_one : perft reset 1 = 20 := by decide

end Chess
